import Mathlib

/-!
Verification development for the gif2video MP4 container muxers.

The repository carries several C muxer variants. The two that the claims
target are embedded here:

* `Raw` — the multi-frame raw-pixel muxer (second C file of
  src/unnamed/part_004): `add_frame`, `get_video_buffer`, `create_mp4`,
  and the `wr_*` box writers.
* `Web` — the WebCodecs H.264 muxer (third C file of
  src/unnamed/part_003): `add_h264_frame`, `set_decoder_config`,
  `finalize_webcodecs_mp4`, and the `write_*` box writers.

Both C files define byte-identical growable-buffer primitives
(`wr_u8/u16/u32`, `wr_bytes`, `box_start`, `box_end`; part_003 names them
`buffer_write_*`).  They are embedded once, below, over `Bytes = List Nat`
with every stored byte reduced `% 256`, exactly as the C stores of
`uint8_t` truncate.  Capacity management (`buf_ensure` / `realloc`) only
ensures room and never changes contents, so it has no byte-level content
and is not modelled.
-/

/-- A growable byte buffer: the sequence of bytes written so far. -/
abbrev Bytes := List Nat

/-- The four big-endian bytes of the low 32 bits of `v` (what the four
`uint8_t` stores of the C `wr_u32` produce). -/
def be32 (v : Nat) : Bytes :=
  [v / 2 ^ 24 % 256, v / 2 ^ 16 % 256, v / 2 ^ 8 % 256, v % 256]

/-- C `wr_u8` / `buffer_write_u8`. -/
def wr_u8 (b : Bytes) (v : Nat) : Bytes := b ++ [v % 256]

/-- C `wr_u16` / `buffer_write_u16`. -/
def wr_u16 (b : Bytes) (v : Nat) : Bytes := b ++ [v / 2 ^ 8 % 256, v % 256]

/-- C `wr_u32` / `buffer_write_u32`. -/
def wr_u32 (b : Bytes) (v : Nat) : Bytes := b ++ be32 v

/-- C `wr_bytes` / `buffer_write_bytes` (also `buffer_write_fourcc`). -/
def wr_bytes (b : Bytes) (d : Bytes) : Bytes := b ++ d

/-- Overwrite the four bytes at `off` with the big-endian encoding of the
low 32 bits of `v` — the byte stores performed by the C `box_end`. -/
def patch_u32 (b : Bytes) (off v : Nat) : Bytes :=
  ((((b.set off (v / 2 ^ 24 % 256)).set (off + 1) (v / 2 ^ 16 % 256)).set
      (off + 2) (v / 2 ^ 8 % 256)).set (off + 3) (v % 256))

/-- C `box_start`: write a 4-byte zero placeholder and the 4-byte type tag;
return the new buffer together with the offset of the placeholder. -/
def box_start (b : Bytes) (type : Bytes) : Bytes × Nat :=
  (wr_bytes (wr_u32 b 0) type, b.length)

/-- C `box_end`: patch `buf.size - off` (as a `uint32_t`) into the
placeholder at `off`. -/
def box_end (b : Bytes) (off : Nat) : Bytes := patch_u32 b off (b.length - off)

/-- Big-endian read of the 4 bytes at `i` (out-of-range bytes read as 0). -/
def readU32 (b : Bytes) (i : Nat) : Nat :=
  b.getD i 0 * 2 ^ 24 + b.getD (i + 1) 0 * 2 ^ 16 + b.getD (i + 2) 0 * 2 ^ 8 +
    b.getD (i + 3) 0

/-- Walk a byte buffer as a sequence of length-prefixed boxes: read the
4-byte big-endian length of the first box, require it to be at least the
8-byte header and at most the remaining bytes, and continue after it.
Returns `true` exactly when the buffer is consumed with zero leftover
bytes at the top level. -/
def parseBoxes (b : Bytes) : Bool :=
  if hb : b = [] then true
  else
    let len := readU32 b 0
    if h : 8 ≤ len ∧ len ≤ b.length then parseBoxes (b.drop len)
    else false
termination_by b.length
decreasing_by
  simp only [List.length_drop]
  have : b.length ≠ 0 := fun hz => hb (List.eq_nil_of_length_eq_zero hz)
  omega

/-- A byte string that is one well-formed box: at least a header, length
below 2^32, and its leading length field equal to its full byte extent. -/
def WellSized (x : Bytes) : Prop :=
  8 ≤ x.length ∧ x.length < 2 ^ 32 ∧ readU32 x 0 = x.length

/-! Four-character box type tags, as their ASCII byte values. -/

def fourcc_ftyp : Bytes := [102, 116, 121, 112]
def fourcc_isom : Bytes := [105, 115, 111, 109]
def fourcc_iso2 : Bytes := [105, 115, 111, 50]
def fourcc_avc1 : Bytes := [97, 118, 99, 49]
def fourcc_mp41 : Bytes := [109, 112, 52, 49]
def fourcc_mdat : Bytes := [109, 100, 97, 116]
def fourcc_moov : Bytes := [109, 111, 111, 118]
def fourcc_mvhd : Bytes := [109, 118, 104, 100]
def fourcc_trak : Bytes := [116, 114, 97, 107]
def fourcc_tkhd : Bytes := [116, 107, 104, 100]
def fourcc_mdia : Bytes := [109, 100, 105, 97]
def fourcc_mdhd : Bytes := [109, 100, 104, 100]
def fourcc_hdlr : Bytes := [104, 100, 108, 114]
def fourcc_vide : Bytes := [118, 105, 100, 101]
def fourcc_minf : Bytes := [109, 105, 110, 102]
def fourcc_vmhd : Bytes := [118, 109, 104, 100]
def fourcc_dinf : Bytes := [100, 105, 110, 102]
def fourcc_dref : Bytes := [100, 114, 101, 102]
def fourcc_url : Bytes := [117, 114, 108, 32]
def fourcc_stbl : Bytes := [115, 116, 98, 108]
def fourcc_stsd : Bytes := [115, 116, 115, 100]
def fourcc_stts : Bytes := [115, 116, 116, 115]
def fourcc_stsc : Bytes := [115, 116, 115, 99]
def fourcc_stsz : Bytes := [115, 116, 115, 122]
def fourcc_stco : Bytes := [115, 116, 99, 111]
def fourcc_stss : Bytes := [115, 116, 115, 115]
def fourcc_avcC : Bytes := [97, 118, 99, 67]
def fourcc_raw : Bytes := [114, 97, 119, 32]

/-!
## The WebCodecs H.264 muxer (third C file of src/unnamed/part_003)

State of the global `Muxer` struct after `init_webcodecs_muxer`:
`frames` accumulates `add_h264_frame` samples, `decoder_config` holds the
record supplied by `set_decoder_config` (absent right after init), and
`output` is the output buffer (empty right after init).
-/

namespace Web

/-- C struct `Frame`: an owned copy of the sample payload, its `uint32_t`
microsecond timestamp and the keyframe flag (`size` is `data.length`). -/
structure Frame where
  data : Bytes
  timestamp : Nat
  is_keyframe : Bool

def default_frame : Frame := ⟨[], 0, false⟩

/-- C struct `Muxer` (the fixed `MAX_FRAMES` array plus `frame_count`
become one list). -/
structure Muxer where
  frames : List Frame
  width : Nat
  height : Nat
  output : Bytes
  decoder_config : Option Bytes

def MAX_FRAMES : Nat := 10000

/-- C `set_decoder_config`: copy the supplied record into the session. -/
def set_decoder_config (m : Muxer) (cfg : Bytes) : Muxer :=
  { m with decoder_config := some cfg }

/-- C `add_h264_frame`: refuse past the frame ceiling, otherwise append an
owned copy of the sample. -/
def add_h264_frame (m : Muxer) (data : Bytes) (timestamp : Nat)
    (is_keyframe : Bool) : Bool × Muxer :=
  if MAX_FRAMES ≤ m.frames.length then (false, m)
  else (true,
    { m with frames := m.frames ++ [⟨data, timestamp % 2 ^ 32, is_keyframe⟩] })

/-- C `write_ftyp` (part_003 webcodecs variant). -/
def write_ftyp (b : Bytes) : Bytes :=
  let (b, start) := box_start b fourcc_ftyp
  let b := wr_bytes b fourcc_isom
  let b := wr_u32 b 512
  let b := wr_bytes b fourcc_isom
  let b := wr_bytes b fourcc_iso2
  let b := wr_bytes b fourcc_avc1
  let b := wr_bytes b fourcc_mp41
  box_end b start

/-- C `write_mdat`: each sample is written as a 4-byte length prefix
followed by its payload. -/
def write_mdat (b : Bytes) (frames : List Frame) : Bytes :=
  let (b, start) := box_start b fourcc_mdat
  let b := frames.foldl (fun b f => wr_bytes (wr_u32 b f.data.length) f.data) b
  box_end b start

/-- The seven fallback `avcC` bytes written by `write_avc1` when no
decoder configuration is available: configurationVersion 1, Baseline
profile 0x42, profile_compatibility 0, level 0x1E, lengthSizeMinusOne
0xFF, zero sequence parameter sets (0xE0), zero picture parameter sets. -/
def write_fallback_avcC (b : Bytes) : Bytes :=
  wr_u8 (wr_u8 (wr_u8 (wr_u8 (wr_u8 (wr_u8 (wr_u8 b 1) 0x42) 0x00) 0x1E) 0xFF)
    0xE0) 0x00

/-- The nested `avcC` box written inline by C `write_avc1`: the supplied
decoder configuration verbatim when present and non-empty, the minimal
fallback record otherwise. -/
def write_avc1_avcC (b : Bytes) (m : Muxer) : Bytes :=
  let (b, avcc_start) := box_start b fourcc_avcC
  let b := match m.decoder_config with
    | some cfg => if 0 < cfg.length then wr_bytes b cfg else write_fallback_avcC b
    | none => write_fallback_avcC b
  box_end b avcc_start

/-- C `write_avc1`: the visual sample entry and its nested `avcC` box. -/
def write_avc1 (b : Bytes) (m : Muxer) : Bytes :=
  let (b, start) := box_start b fourcc_avc1
  let b := wr_bytes b (List.replicate 6 0)
  let b := wr_u16 b 1
  let b := wr_u16 b 0
  let b := wr_u16 b 0
  let b := wr_u32 b 0
  let b := wr_u32 b 0
  let b := wr_u32 b 0
  let b := wr_u16 b m.width
  let b := wr_u16 b m.height
  let b := wr_u32 b 0x00480000
  let b := wr_u32 b 0x00480000
  let b := wr_u32 b 0
  let b := wr_u16 b 1
  let b := wr_u8 b 0
  let b := wr_bytes b (List.replicate 31 0)
  let b := wr_u16 b 0x0018
  let b := wr_u16 b 0xFFFF
  let b := write_avc1_avcC b m
  box_end b start

/-- C `write_stsd`. -/
def write_stsd (b : Bytes) (m : Muxer) : Bytes :=
  let (b, start) := box_start b fourcc_stsd
  let b := wr_u32 b 0
  let b := wr_u32 b 1
  let b := write_avc1 b m
  box_end b start

/-- The average sample delta computed inline by C `write_stts`:
`uint32_t` arithmetic on the first/last frame timestamps. -/
def avg_delta (m : Muxer) : Nat :=
  if 1 < m.frames.length then
    let total := ((m.frames.getLastD default_frame).timestamp + 2 ^ 32 -
      (m.frames.headD default_frame).timestamp % 2 ^ 32) % 2 ^ 32
    total * 30 % 2 ^ 32 / (m.frames.length - 1) / 1000
  else 1000

/-- C `write_stts` (webcodecs variant): always exactly ONE entry, holding
the sample count and the averaged delta. -/
def write_stts (b : Bytes) (m : Muxer) : Bytes :=
  let (b, start) := box_start b fourcc_stts
  let b := wr_u32 b 0
  let b := wr_u32 b 1
  let b := wr_u32 b m.frames.length
  let b := wr_u32 b (avg_delta m)
  box_end b start

/-- C `write_stsc`: one entry mapping all samples to the single chunk. -/
def write_stsc (b : Bytes) (m : Muxer) : Bytes :=
  let (b, start) := box_start b fourcc_stsc
  let b := wr_u32 b 0
  let b := wr_u32 b 1
  let b := wr_u32 b 1
  let b := wr_u32 b m.frames.length
  let b := wr_u32 b 1
  box_end b start

/-- C `write_stsz` (webcodecs variant): always the variable-size form —
sample-size field 0 and one `size + 4` entry per sample. -/
def write_stsz (b : Bytes) (m : Muxer) : Bytes :=
  let (b, start) := box_start b fourcc_stsz
  let b := wr_u32 b 0
  let b := wr_u32 b 0
  let b := wr_u32 b m.frames.length
  let b := m.frames.foldl (fun b f => wr_u32 b (f.data.length + 4)) b
  box_end b start

/-- C `write_stco` (webcodecs variant): single entry `mdat_offset + 8`. -/
def write_stco (b : Bytes) (mdat_offset : Nat) : Bytes :=
  let (b, start) := box_start b fourcc_stco
  let b := wr_u32 b 0
  let b := wr_u32 b 1
  let b := wr_u32 b (mdat_offset + 8)
  box_end b start

def keyframe_count (fs : List Frame) : Nat :=
  (fs.filter (fun f => f.is_keyframe)).length

/-- The entry-writing loop of C `write_stss`: for each frame, when it is a
keyframe, write its 1-indexed position. -/
def stss_write (b : Bytes) (fs : List Frame) (i : Nat) : Bytes :=
  match fs with
  | [] => b
  | f :: rest => stss_write (if f.is_keyframe then wr_u32 b (i + 1) else b) rest (i + 1)

/-- C `write_stss`: skipped entirely when there are NO keyframes,
otherwise the 1-indexed keyframe positions in order. -/
def write_stss (b : Bytes) (m : Muxer) : Bytes :=
  if keyframe_count m.frames = 0 then b
  else
    let (b, start) := box_start b fourcc_stss
    let b := wr_u32 b 0
    let b := wr_u32 b (keyframe_count m.frames)
    let b := stss_write b m.frames 0
    box_end b start

/-- C `write_stbl`. -/
def write_stbl (b : Bytes) (m : Muxer) (mdat_offset : Nat) : Bytes :=
  let (b, start) := box_start b fourcc_stbl
  let b := write_stsd b m
  let b := write_stts b m
  let b := write_stsc b m
  let b := write_stsz b m
  let b := write_stco b mdat_offset
  let b := write_stss b m
  box_end b start

/-- C `write_minf`: vmhd and dinf/dref/url written inline, then stbl. -/
def write_minf (b : Bytes) (m : Muxer) (mdat_offset : Nat) : Bytes :=
  let (b, start) := box_start b fourcc_minf
  let (b, vmhd_start) := box_start b fourcc_vmhd
  let b := wr_u32 b 1
  let b := wr_u16 b 0
  let b := wr_u16 b 0
  let b := wr_u16 b 0
  let b := wr_u16 b 0
  let b := box_end b vmhd_start
  let (b, dinf_start) := box_start b fourcc_dinf
  let (b, dref_start) := box_start b fourcc_dref
  let b := wr_u32 b 0
  let b := wr_u32 b 1
  let (b, url_start) := box_start b fourcc_url
  let b := wr_u32 b 1
  let b := box_end b url_start
  let b := box_end b dref_start
  let b := box_end b dinf_start
  let b := write_stbl b m mdat_offset
  box_end b start

/-- The mdhd duration computed inline by C `write_mdia`: last timestamp
(microseconds) converted to the 30000 timescale with `uint32_t` multiply;
30000 when there are no frames. -/
def mdhd_duration (m : Muxer) : Nat :=
  if 0 < m.frames.length then
    (m.frames.getLastD default_frame).timestamp * 30 % 2 ^ 32 / 1000
  else 30000

/-- C `write_mdia`: mdhd (timescale 30000) and hdlr written inline, then
minf. -/
def write_mdia (b : Bytes) (m : Muxer) (mdat_offset : Nat) : Bytes :=
  let (b, start) := box_start b fourcc_mdia
  let (b, mdhd_start) := box_start b fourcc_mdhd
  let b := wr_u32 b 0
  let b := wr_u32 b 0
  let b := wr_u32 b 0
  let b := wr_u32 b 30000
  let b := wr_u32 b (mdhd_duration m)
  let b := wr_u16 b 0x55C4
  let b := wr_u16 b 0
  let b := box_end b mdhd_start
  let (b, hdlr_start) := box_start b fourcc_hdlr
  let b := wr_u32 b 0
  let b := wr_u32 b 0
  let b := wr_bytes b fourcc_vide
  let b := wr_u32 b 0
  let b := wr_u32 b 0
  let b := wr_u32 b 0
  let b := wr_u8 b 0
  let b := box_end b hdlr_start
  let b := write_minf b m mdat_offset
  box_end b start

/-- The tkhd / mvhd duration computed inline by C `write_trak` and
`write_moov`: last timestamp microseconds → milliseconds; 1000 when there
are no frames. -/
def movie_duration (m : Muxer) : Nat :=
  if 0 < m.frames.length then (m.frames.getLastD default_frame).timestamp / 1000
  else 1000

/-- C `write_trak`: tkhd written inline, then mdia. -/
def write_trak (b : Bytes) (m : Muxer) (mdat_offset : Nat) : Bytes :=
  let (b, start) := box_start b fourcc_trak
  let (b, tkhd_start) := box_start b fourcc_tkhd
  let b := wr_u32 b 0x00000007
  let b := wr_u32 b 0
  let b := wr_u32 b 0
  let b := wr_u32 b 1
  let b := wr_u32 b 0
  let b := wr_u32 b (movie_duration m)
  let b := wr_u32 b 0
  let b := wr_u32 b 0
  let b := wr_u16 b 0
  let b := wr_u16 b 0
  let b := wr_u16 b 0
  let b := wr_u16 b 0
  let b := wr_u32 b 0x00010000
  let b := wr_u32 b 0
  let b := wr_u32 b 0
  let b := wr_u32 b 0
  let b := wr_u32 b 0
  let b := wr_u32 b 0x00010000
  let b := wr_u32 b 0
  let b := wr_u32 b 0
  let b := wr_u32 b 0
  let b := wr_u32 b 0x40000000
  let b := wr_u32 b (m.width * 2 ^ 16)
  let b := wr_u32 b (m.height * 2 ^ 16)
  let b := box_end b tkhd_start
  let b := write_mdia b m mdat_offset
  box_end b start

/-- C `write_moov`: mvhd (timescale 1000) written inline, then trak. -/
def write_moov (b : Bytes) (m : Muxer) (mdat_offset : Nat) : Bytes :=
  let (b, start) := box_start b fourcc_moov
  let (b, mvhd_start) := box_start b fourcc_mvhd
  let b := wr_u32 b 0
  let b := wr_u32 b 0
  let b := wr_u32 b 0
  let b := wr_u32 b 1000
  let b := wr_u32 b (movie_duration m)
  let b := wr_u32 b 0x00010000
  let b := wr_u16 b 0x0100
  let b := wr_u16 b 0
  let b := wr_u32 b 0
  let b := wr_u32 b 0
  let b := wr_u32 b 0x00010000
  let b := wr_u32 b 0
  let b := wr_u32 b 0
  let b := wr_u32 b 0
  let b := wr_u32 b 0
  let b := wr_u32 b 0x00010000
  let b := wr_u32 b 0
  let b := wr_u32 b 0
  let b := wr_u32 b 0
  let b := wr_u32 b 0x40000000
  let b := wr_u32 b 0
  let b := wr_u32 b 0
  let b := wr_u32 b 0
  let b := wr_u32 b 0
  let b := wr_u32 b 0
  let b := wr_u32 b 0
  let b := wr_u32 b 2
  let b := box_end b mvhd_start
  let b := write_trak b m mdat_offset
  box_end b start

/-- C `finalize_webcodecs_mp4`: `NULL` (no data) for an empty session;
otherwise append ftyp, remember the mdat position, append mdat and moov
into the session's output buffer, and return it. -/
def finalize_webcodecs_mp4 (m : Muxer) : Option Bytes × Muxer :=
  if m.frames.length = 0 then (none, m)
  else
    let b := write_ftyp m.output
    let mdat_offset := b.length
    let b := write_mdat b m.frames
    let b := write_moov b m mdat_offset
    (some b, { m with output := b })

end Web

/-!
## The multi-frame raw-pixel muxer (second C file of src/unnamed/part_004)

Global state after `init_encoder`: an accumulated `FrameData` list plus
the session dimensions and fps, and the lazily built `mp4_output`.
-/

namespace Raw

/-- C struct `FrameData`: an owned RGB24 copy of the frame and its delay
in milliseconds (`size` is `rgb_data.length`). -/
structure FrameData where
  rgb_data : Bytes
  delay_ms : Nat

/-- The global encoder state of the multi-frame raw muxer, as left by
`init_encoder`: `frames`/`frame_count` become a list, `mp4_output` is
`none` until `get_video_buffer` builds it. -/
structure EncoderState where
  frames : List FrameData
  video_width : Nat
  video_height : Nat
  video_fps : Nat
  mp4_output : Option Bytes

/-- C `rgba_to_rgb24`: keep the R, G, B bytes of each of the `w*h` pixels
and drop the alpha byte. -/
def rgba_to_rgb24 (rgba : Bytes) (w h : Nat) : Bytes :=
  (List.range (w * h)).foldr
    (fun i acc => rgba.getD (i * 4) 0 :: rgba.getD (i * 4 + 1) 0 ::
      rgba.getD (i * 4 + 2) 0 :: acc) []

/-- C `add_frame` (multi-frame variant): reject a dimension mismatch,
otherwise store the RGB24 conversion; a delay of 0 (or any non-positive
`int`) is replaced by the 100 ms default. -/
def add_frame (m : EncoderState) (rgba_data : Bytes) (width height : Nat)
    (delay_ms : Int) : Bool × EncoderState :=
  if width ≠ m.video_width ∨ height ≠ m.video_height then (false, m)
  else
    let rgb := rgba_to_rgb24 rgba_data width height
    let fd : FrameData := ⟨rgb, if 0 < delay_ms then delay_ms.toNat else 100⟩
    (true, { m with frames := m.frames ++ [fd] })

/-- C `wr_ftyp` (part_004): brand isom, version 512, compatible brands
written as the single 16-byte string "isomiso2avc1mp41". -/
def wr_ftyp (b : Bytes) : Bytes :=
  let (b, s) := box_start b fourcc_ftyp
  let b := wr_bytes b fourcc_isom
  let b := wr_u32 b 512
  let b := wr_bytes b (fourcc_isom ++ fourcc_iso2 ++ fourcc_avc1 ++ fourcc_mp41)
  box_end b s

/-- C `wr_mdat` (multi-frame variant): all frame payloads back to back. -/
def wr_mdat (b : Bytes) (frames : List FrameData) : Bytes :=
  let (b, s) := box_start b fourcc_mdat
  let b := frames.foldl (fun b f => wr_bytes b f.rgb_data) b
  box_end b s

/-- C `wr_mvhd`. -/
def wr_mvhd (b : Bytes) (scale dur : Nat) : Bytes :=
  let (b, s) := box_start b fourcc_mvhd
  let b := wr_u8 b 0
  let b := wr_u8 b 0
  let b := wr_u8 b 0
  let b := wr_u8 b 0
  let b := wr_u32 b 0
  let b := wr_u32 b 0
  let b := wr_u32 b scale
  let b := wr_u32 b dur
  let b := wr_u32 b 0x00010000
  let b := wr_u16 b 0x0100
  let b := wr_u16 b 0
  let b := wr_u32 b 0
  let b := wr_u32 b 0
  let b := wr_u32 b 0x00010000
  let b := wr_u32 b 0
  let b := wr_u32 b 0
  let b := wr_u32 b 0
  let b := wr_u32 b 0x00010000
  let b := wr_u32 b 0
  let b := wr_u32 b 0
  let b := wr_u32 b 0
  let b := wr_u32 b 0x40000000
  let b := wr_u32 b 0
  let b := wr_u32 b 0
  let b := wr_u32 b 0
  let b := wr_u32 b 0
  let b := wr_u32 b 0
  let b := wr_u32 b 0
  let b := wr_u32 b 2
  box_end b s

/-- C `wr_tkhd`. -/
def wr_tkhd (b : Bytes) (dur w h : Nat) : Bytes :=
  let (b, s) := box_start b fourcc_tkhd
  let b := wr_u8 b 0
  let b := wr_u8 b 0
  let b := wr_u8 b 0
  let b := wr_u8 b 7
  let b := wr_u32 b 0
  let b := wr_u32 b 0
  let b := wr_u32 b 1
  let b := wr_u32 b 0
  let b := wr_u32 b dur
  let b := wr_u32 b 0
  let b := wr_u32 b 0
  let b := wr_u16 b 0
  let b := wr_u16 b 0
  let b := wr_u16 b 0
  let b := wr_u16 b 0
  let b := wr_u32 b 0x00010000
  let b := wr_u32 b 0
  let b := wr_u32 b 0
  let b := wr_u32 b 0
  let b := wr_u32 b 0x00010000
  let b := wr_u32 b 0
  let b := wr_u32 b 0
  let b := wr_u32 b 0
  let b := wr_u32 b 0x40000000
  let b := wr_u32 b (w * 2 ^ 16)
  let b := wr_u32 b (h * 2 ^ 16)
  box_end b s

/-- C `wr_mdhd`. -/
def wr_mdhd (b : Bytes) (scale dur : Nat) : Bytes :=
  let (b, s) := box_start b fourcc_mdhd
  let b := wr_u8 b 0
  let b := wr_u8 b 0
  let b := wr_u8 b 0
  let b := wr_u8 b 0
  let b := wr_u32 b 0
  let b := wr_u32 b 0
  let b := wr_u32 b scale
  let b := wr_u32 b dur
  let b := wr_u16 b 0x55c4
  let b := wr_u16 b 0
  box_end b s

/-- The 13 bytes of the C string "VideoHandler" with its terminator. -/
def video_handler_name : Bytes :=
  [86, 105, 100, 101, 111, 72, 97, 110, 100, 108, 101, 114, 0]

/-- C `wr_hdlr`. -/
def wr_hdlr (b : Bytes) : Bytes :=
  let (b, s) := box_start b fourcc_hdlr
  let b := wr_u8 b 0
  let b := wr_u8 b 0
  let b := wr_u8 b 0
  let b := wr_u8 b 0
  let b := wr_u32 b 0
  let b := wr_bytes b fourcc_vide
  let b := wr_u32 b 0
  let b := wr_u32 b 0
  let b := wr_u32 b 0
  let b := wr_bytes b video_handler_name
  box_end b s

/-- C `wr_vmhd`. -/
def wr_vmhd (b : Bytes) : Bytes :=
  let (b, s) := box_start b fourcc_vmhd
  let b := wr_u8 b 0
  let b := wr_u8 b 0
  let b := wr_u8 b 0
  let b := wr_u8 b 1
  let b := wr_u16 b 0
  let b := wr_u16 b 0
  let b := wr_u16 b 0
  let b := wr_u16 b 0
  box_end b s

/-- C `wr_dref`. -/
def wr_dref (b : Bytes) : Bytes :=
  let (b, s) := box_start b fourcc_dref
  let b := wr_u8 b 0
  let b := wr_u8 b 0
  let b := wr_u8 b 0
  let b := wr_u8 b 0
  let b := wr_u32 b 1
  let (b, url_s) := box_start b fourcc_url
  let b := wr_u8 b 0
  let b := wr_u8 b 0
  let b := wr_u8 b 0
  let b := wr_u8 b 1
  let b := box_end b url_s
  box_end b s

/-- C `wr_stsd` (raw-pixel variant): one "raw " visual sample entry. -/
def wr_stsd (b : Bytes) (w h : Nat) : Bytes :=
  let (b, s) := box_start b fourcc_stsd
  let b := wr_u8 b 0
  let b := wr_u8 b 0
  let b := wr_u8 b 0
  let b := wr_u8 b 0
  let b := wr_u32 b 1
  let (b, raw_s) := box_start b fourcc_raw
  let b := wr_u16 b 0
  let b := wr_u16 b 0
  let b := wr_u16 b 0
  let b := wr_u16 b 1
  let b := wr_u16 b 0
  let b := wr_u16 b 0
  let b := wr_u32 b 0
  let b := wr_u32 b 0
  let b := wr_u32 b 0
  let b := wr_u16 b w
  let b := wr_u16 b h
  let b := wr_u32 b 0x00480000
  let b := wr_u32 b 0x00480000
  let b := wr_u32 b 0
  let b := wr_u16 b 1
  let b := wr_bytes b (List.replicate 32 0)
  let b := wr_u16 b 0x0018
  let b := wr_u16 b 0xFFFF
  let b := box_end b raw_s
  box_end b s

/-- Length of the run of elements equal to `d` at the head of `l` — the
inner `while` of C `wr_stts` counting how far the current delay repeats. -/
def runLen (d : Nat) : List Nat → Nat
  | [] => 0
  | x :: xs => if x = d then runLen d xs + 1 else 0

/-- The first counting pass of C `wr_stts`, as a loop with an explicit
iteration budget: every iteration consumes at least one delay, so the
budget `fuel = length of the delay list` is never exhausted. -/
def stts_entry_count_loop : Nat → List Nat → Nat
  | _, [] => 0
  | 0, _ :: _ => 0
  | fuel + 1, d :: rest =>
    stts_entry_count_loop fuel (rest.drop (runLen d rest)) + 1

/-- The first counting pass of C `wr_stts`: how many run-length entries
the delays produce. -/
def stts_entry_count (ds : List Nat) : Nat := stts_entry_count_loop ds.length ds

/-- The second pass of C `wr_stts` (same iteration budget): write each
`(count, delta)` pair. -/
def stts_write_entries_loop : Nat → Bytes → List Nat → Bytes
  | _, b, [] => b
  | 0, b, _ :: _ => b
  | fuel + 1, b, d :: rest =>
    stts_write_entries_loop fuel (wr_u32 (wr_u32 b (1 + runLen d rest)) d)
      (rest.drop (runLen d rest))

/-- The second pass of C `wr_stts`: write each `(count, delta)` pair. -/
def stts_write_entries (b : Bytes) (ds : List Nat) : Bytes :=
  stts_write_entries_loop ds.length b ds

/-- C `wr_stts` (multi-frame variant): greedy run-length encoding of the
ordered frame delays, written in two passes. -/
def wr_stts (b : Bytes) (deltas : List Nat) : Bytes :=
  let (b, s) := box_start b fourcc_stts
  let b := wr_u8 b 0
  let b := wr_u8 b 0
  let b := wr_u8 b 0
  let b := wr_u8 b 0
  let b := wr_u32 b (stts_entry_count deltas)
  let b := stts_write_entries b deltas
  box_end b s

/-- C `wr_stsc` (multi-frame variant): one entry, all `count` samples in
the single chunk. -/
def wr_stsc (b : Bytes) (count : Nat) : Bytes :=
  let (b, s) := box_start b fourcc_stsc
  let b := wr_u8 b 0
  let b := wr_u8 b 0
  let b := wr_u8 b 0
  let b := wr_u8 b 0
  let b := wr_u32 b 1
  let b := wr_u32 b 1
  let b := wr_u32 b count
  let b := wr_u32 b 1
  box_end b s

/-- The uniformity check of C `wr_stsz`: every size equals the first. -/
def all_same (sizes : List Nat) : Bool :=
  match sizes with
  | [] => true
  | x :: xs => xs.all (fun y => y = x)

/-- C `wr_stsz` (multi-frame variant): shared-size form when every sample
has the same byte length, otherwise the explicit per-sample list. -/
def wr_stsz (b : Bytes) (sizes : List Nat) : Bytes :=
  let (b, s) := box_start b fourcc_stsz
  let b := wr_u8 b 0
  let b := wr_u8 b 0
  let b := wr_u8 b 0
  let b := wr_u8 b 0
  let b :=
    if all_same sizes then
      wr_u32 (wr_u32 b (sizes.headD 0)) sizes.length
    else
      sizes.foldl (fun b sz => wr_u32 b sz) (wr_u32 (wr_u32 b 0) sizes.length)
  box_end b s

/-- C `wr_stco` (multi-frame variant): the single chunk offset. -/
def wr_stco (b : Bytes) (offset : Nat) : Bytes :=
  let (b, s) := box_start b fourcc_stco
  let b := wr_u8 b 0
  let b := wr_u8 b 0
  let b := wr_u8 b 0
  let b := wr_u8 b 0
  let b := wr_u32 b 1
  let b := wr_u32 b offset
  box_end b s

/-- C `wr_stbl` (multi-frame variant). -/
def wr_stbl (b : Bytes) (w h : Nat) (sizes deltas : List Nat) (count offset : Nat) :
    Bytes :=
  let (b, s) := box_start b fourcc_stbl
  let b := wr_stsd b w h
  let b := wr_stts b deltas
  let b := wr_stsc b count
  let b := wr_stsz b sizes
  let b := wr_stco b offset
  box_end b s

/-- C `create_mp4` (multi-frame variant): ftyp into the main buffer, the
moov tree into a scratch buffer, the mdat offset computed from the
scratch size BEFORE the stbl is appended to it, then moov and mdat
appended to the main buffer. -/
def create_mp4 (b : Bytes) (frames : List FrameData) (w h : Nat) : Bytes :=
  let timescale := 1000
  let total_duration := (frames.map (fun f => f.delay_ms)).sum
  let b := wr_ftyp b
  let moov_buf : Bytes := []
  let (moov_buf, moov_s) := box_start moov_buf fourcc_moov
  let moov_buf := wr_mvhd moov_buf timescale total_duration
  let (moov_buf, trak_s) := box_start moov_buf fourcc_trak
  let moov_buf := wr_tkhd moov_buf total_duration w h
  let (moov_buf, mdia_s) := box_start moov_buf fourcc_mdia
  let moov_buf := wr_mdhd moov_buf timescale total_duration
  let moov_buf := wr_hdlr moov_buf
  let (moov_buf, minf_s) := box_start moov_buf fourcc_minf
  let moov_buf := wr_vmhd moov_buf
  let (moov_buf, dinf_s) := box_start moov_buf fourcc_dinf
  let moov_buf := wr_dref moov_buf
  let moov_buf := box_end moov_buf dinf_s
  let mdat_offset := b.length + moov_buf.length + 8
  let moov_buf := wr_stbl moov_buf w h (frames.map (fun f => f.rgb_data.length))
    (frames.map (fun f => f.delay_ms)) frames.length mdat_offset
  let moov_buf := box_end moov_buf minf_s
  let moov_buf := box_end moov_buf mdia_s
  let moov_buf := box_end moov_buf trak_s
  let moov_buf := box_end moov_buf moov_s
  let b := b ++ moov_buf
  wr_mdat b frames

/-- C `get_video_buffer`: build the MP4 lazily on the first call with a
non-empty frame list; afterwards (or with no frames) just return the
cached `mp4_output` pointer. -/
def get_video_buffer (m : EncoderState) : Option Bytes × EncoderState :=
  if m.mp4_output.isNone ∧ 0 < m.frames.length then
    let out := create_mp4 [] m.frames m.video_width m.video_height
    (some out, { m with mp4_output := some out })
  else (m.mp4_output, m)

end Raw

/-!
## Specification-side and derived definitions

`spec_rle` follows the spec's words for the time-to-sample encoding
(" run-length-encode consecutive samples sharing the same duration into
(count, delta) pairs, in original order; single pass, greedy grouping ").
The remaining definitions name byte shapes and measures used to state the
characterization theorems; each is tied to the source-translated writers
by a proven equation below.
-/

/-- Greedy run-length encoding of a list, per the spec's words: consecutive
equal elements collapse into one `(count, value)` pair, in original order,
with no reordering and no merging of non-adjacent equal values. -/
def spec_rle (l : List Nat) : List (Nat × Nat) :=
  l.foldr
    (fun d acc =>
      match acc with
      | [] => [(1, d)]
      | (c, e) :: rest => if d = e then (c + 1, e) :: rest else (1, d) :: (c, e) :: rest)
    []

/-- The bytes of a list of 32-bit values, each written big-endian. -/
def u32list (l : List Nat) : Bytes := l.foldr (fun x acc => be32 x ++ acc) []

/-- The bytes of a list of `(count, delta)` time-to-sample entries. -/
def entriesBytes (es : List (Nat × Nat)) : Bytes :=
  es.foldr (fun e acc => be32 e.1 ++ (be32 e.2 ++ acc)) []

namespace Web

/-- The 1-indexed positions of the keyframes of `fs`, starting the count
at `i` — the positions C `write_stss` emits. -/
def sync_positions : List Frame → Nat → List Nat
  | [], _ => []
  | f :: rest, i =>
    if f.is_keyframe then (i + 1) :: sync_positions rest (i + 1)
    else sync_positions rest (i + 1)

/-- The mdat payload of the WebCodecs muxer: each sample's 4-byte length
prefix followed by its bytes. -/
def frames_payload (fs : List Frame) : Bytes :=
  fs.foldr (fun f acc => be32 f.data.length ++ (f.data ++ acc)) []

/-- Byte count of the `avcC` box content `write_avc1_avcC` writes. -/
def avcC_content_len (m : Muxer) : Nat :=
  match m.decoder_config with
  | some cfg => if 0 < cfg.length then cfg.length else 7
  | none => 7

/-- The 78 bytes of the visual sample entry fields written by
`write_avc1` before the nested `avcC` box. -/
def avc1_visual (m : Muxer) : Bytes :=
  List.replicate 6 0 ++ [0, 1] ++ [0, 0] ++ [0, 0] ++ be32 0 ++ be32 0 ++ be32 0 ++
    [m.width / 2 ^ 8 % 256, m.width % 256] ++
    [m.height / 2 ^ 8 % 256, m.height % 256] ++
    be32 0x00480000 ++ be32 0x00480000 ++ be32 0 ++ [0, 1] ++ [0] ++
    List.replicate 31 0 ++ [0, 0x18] ++ [255, 255]

/-- The fallback `avcC` record as plain bytes. -/
def fallback_avcC_bytes : Bytes := [1, 0x42, 0x00, 0x1E, 0xFF, 0xE0, 0x00]

/-- Three frames whose timestamps are 0, 50000 and 60000 microseconds:
successive spacings differ, so greedy RLE of the implied durations would
need more than one entry. -/
def mx_stts : Muxer := ⟨[⟨[1], 0, true⟩, ⟨[2], 50000, false⟩, ⟨[3], 60000, false⟩], 2, 2, [], none⟩

/-- A session in which every sample is a sync sample. -/
def mx_allsync : Muxer := ⟨[⟨[1], 0, true⟩, ⟨[2], 100000, true⟩], 2, 2, [], none⟩

/-- A session whose two samples have identical byte length. -/
def mx_eqsize : Muxer := ⟨[⟨[7], 0, true⟩, ⟨[9], 100000, false⟩], 2, 2, [], none⟩

/-- Two frames at timestamps 0 and 100000 microseconds. -/
def mx_two : Muxer := ⟨[⟨[1], 0, true⟩, ⟨[2], 100000, false⟩], 2, 2, [], none⟩

/-- A one-frame session (fresh output buffer, no decoder config). -/
def mx_one : Muxer := ⟨[⟨[0, 0, 0, 1], 0, true⟩], 2, 2, [], none⟩

/-- A one-frame session with a supplied decoder configuration record. -/
def mx_cfg : Muxer := ⟨[⟨[9], 0, true⟩], 2, 2, [], some [1, 100, 200]⟩

/-- A freshly initialized session with no samples. -/
def mx_empty : Muxer := ⟨[], 2, 2, [], none⟩

end Web

namespace Raw

/-- The mdat payload of the raw muxer: the frame payloads back to back. -/
def frames_payload (fs : List FrameData) : Bytes :=
  fs.foldr (fun f acc => f.rgb_data ++ acc) []

/-- One 1-by-1 frame: RGB payload `[10, 20, 30]`, 100 ms delay. -/
def exFrames : List FrameData := [⟨[10, 20, 30], 100⟩]

/-- The container the multi-frame raw muxer builds for `exFrames`. -/
def exOut : Bytes := create_mp4 [] exFrames 1 1

/-- A fresh one-frame session state for the raw muxer. -/
def exState : EncoderState := ⟨exFrames, 1, 1, 10, none⟩

/-- The 610 bytes of the container `create_mp4` builds for `exFrames`,
as a literal, so facts about individual fields evaluate cheaply. -/
def exOut_bytes : Bytes :=
  [0, 0, 0, 32, 102, 116, 121, 112, 105, 115, 111, 109, 0, 0, 2, 0, 105,
   115, 111, 109, 105, 115, 111, 50, 97, 118, 99, 49, 109, 112, 52, 49, 0,
   0, 2, 55, 109, 111, 111, 118, 0, 0, 0, 108, 109, 118, 104, 100, 0, 0, 0,
   0, 0, 0, 0, 0, 0, 0, 0, 0, 0, 0, 3, 232, 0, 0, 0, 100, 0, 1, 0, 0, 1, 0,
   0, 0, 0, 0, 0, 0, 0, 0, 0, 0, 0, 1, 0, 0, 0, 0, 0, 0, 0, 0, 0, 0, 0, 0,
   0, 0, 0, 1, 0, 0, 0, 0, 0, 0, 0, 0, 0, 0, 0, 0, 0, 0, 64, 0, 0, 0, 0, 0,
   0, 0, 0, 0, 0, 0, 0, 0, 0, 0, 0, 0, 0, 0, 0, 0, 0, 0, 0, 0, 0, 0, 0, 0,
   0, 2, 0, 0, 1, 195, 116, 114, 97, 107, 0, 0, 0, 92, 116, 107, 104, 100,
   0, 0, 0, 7, 0, 0, 0, 0, 0, 0, 0, 0, 0, 0, 0, 1, 0, 0, 0, 0, 0, 0, 0,
   100, 0, 0, 0, 0, 0, 0, 0, 0, 0, 0, 0, 0, 0, 0, 0, 0, 0, 1, 0, 0, 0, 0,
   0, 0, 0, 0, 0, 0, 0, 0, 0, 0, 0, 1, 0, 0, 0, 0, 0, 0, 0, 0, 0, 0, 0, 0,
   0, 0, 64, 0, 0, 0, 0, 1, 0, 0, 0, 1, 0, 0, 0, 0, 1, 95, 109, 100, 105,
   97, 0, 0, 0, 32, 109, 100, 104, 100, 0, 0, 0, 0, 0, 0, 0, 0, 0, 0, 0, 0,
   0, 0, 3, 232, 0, 0, 0, 100, 85, 196, 0, 0, 0, 0, 0, 45, 104, 100, 108,
   114, 0, 0, 0, 0, 0, 0, 0, 0, 118, 105, 100, 101, 0, 0, 0, 0, 0, 0, 0, 0,
   0, 0, 0, 0, 86, 105, 100, 101, 111, 72, 97, 110, 100, 108, 101, 114, 0,
   0, 0, 1, 10, 109, 105, 110, 102, 0, 0, 0, 20, 118, 109, 104, 100, 0, 0,
   0, 1, 0, 0, 0, 0, 0, 0, 0, 0, 0, 0, 0, 36, 100, 105, 110, 102, 0, 0, 0,
   28, 100, 114, 101, 102, 0, 0, 0, 0, 0, 0, 0, 1, 0, 0, 0, 12, 117, 114,
   108, 32, 0, 0, 0, 1, 0, 0, 0, 202, 115, 116, 98, 108, 0, 0, 0, 102, 115,
   116, 115, 100, 0, 0, 0, 0, 0, 0, 0, 1, 0, 0, 0, 86, 114, 97, 119, 32, 0,
   0, 0, 0, 0, 0, 0, 1, 0, 0, 0, 0, 0, 0, 0, 0, 0, 0, 0, 0, 0, 0, 0, 0, 0,
   1, 0, 1, 0, 72, 0, 0, 0, 72, 0, 0, 0, 0, 0, 0, 0, 1, 0, 0, 0, 0, 0, 0,
   0, 0, 0, 0, 0, 0, 0, 0, 0, 0, 0, 0, 0, 0, 0, 0, 0, 0, 0, 0, 0, 0, 0, 0,
   0, 0, 0, 24, 255, 255, 0, 0, 0, 24, 115, 116, 116, 115, 0, 0, 0, 0, 0,
   0, 0, 1, 0, 0, 0, 1, 0, 0, 0, 100, 0, 0, 0, 28, 115, 116, 115, 99, 0, 0,
   0, 0, 0, 0, 0, 1, 0, 0, 0, 1, 0, 0, 0, 1, 0, 0, 0, 1, 0, 0, 0, 20, 115,
   116, 115, 122, 0, 0, 0, 0, 0, 0, 0, 3, 0, 0, 0, 1, 0, 0, 0, 20, 115,
   116, 99, 111, 0, 0, 0, 0, 0, 0, 0, 1, 0, 0, 1, 149, 0, 0, 0, 11, 109,
   100, 97, 116, 10, 20, 30]

end Raw

namespace Raw

/-- Payload of the stts box as greedy RLE of the delays. -/
def stts_payload (ds : List Nat) : Bytes :=
  [0, 0, 0, 0] ++ (be32 (spec_rle ds).length ++ entriesBytes (spec_rle ds))

/-- Payload of the shared-size form of the raw muxer's stsz box. -/
def stsz_shared_payload (ss : List Nat) : Bytes :=
  [0, 0, 0, 0] ++ (be32 (ss.headD 0) ++ be32 ss.length)

/-- Payload of the variable-size form of the raw muxer's stsz box. -/
def stsz_var_payload (ss : List Nat) : Bytes :=
  [0, 0, 0, 0] ++ (be32 0 ++ (be32 ss.length ++ u32list ss))

end Raw

namespace Web

/-- Payload of the WebCodecs stsz box: always the variable form, one
`size + 4` entry per sample. -/
def stsz_payload (fs : List Frame) : Bytes :=
  be32 0 ++ (be32 0 ++ (be32 fs.length ++ u32list (fs.map (fun f => f.data.length + 4))))

/-- Payload of the WebCodecs stss box. -/
def stss_payload (fs : List Frame) : Bytes :=
  be32 0 ++ (be32 (keyframe_count fs) ++ u32list (sync_positions fs 0))

/-- Payload of the WebCodecs stts box: a single averaged entry. -/
def stts_payload (m : Muxer) : Bytes :=
  be32 0 ++ (be32 1 ++ (be32 m.frames.length ++ be32 (avg_delta m)))

/-- Content of the `avcC` box: the supplied configuration record verbatim
when present and non-empty, the minimal fallback record otherwise. -/
def avcC_content (m : Muxer) : Bytes :=
  match m.decoder_config with
  | some cfg => if 0 < cfg.length then cfg else fallback_avcC_bytes
  | none => fallback_avcC_bytes

end Web

/-!
## Theorems
-/

@[simp] theorem be32_length (v : Nat) : (be32 v).length = 4 := rfl

@[simp] theorem patch_u32_length (b : Bytes) (off v : Nat) :
    (patch_u32 b off v).length = b.length := by
  simp [patch_u32]

@[simp] theorem box_end_length (b : Bytes) (off : Nat) :
    (box_end b off).length = b.length := by
  simp [box_end]

theorem patch_u32_append (xs ys : Bytes) (k v : Nat) :
    patch_u32 (xs ++ ys) (xs.length + k) v = xs ++ patch_u32 ys k v := by
  have h1 : xs.length + k + 1 = xs.length + (k + 1) := by omega
  have h2 : xs.length + k + 2 = xs.length + (k + 2) := by omega
  have h3 : xs.length + k + 3 = xs.length + (k + 3) := by omega
  simp [patch_u32, h1, h2, h3, List.set_append_right, Nat.add_sub_cancel_left,
    Nat.le_add_right]

theorem patch_u32_zero (a b c d : Nat) (rest : Bytes) (v : Nat) :
    patch_u32 (a :: b :: c :: d :: rest) 0 v = be32 v ++ rest := by
  simp [patch_u32, be32, List.set]

/-- Core correctness of the `box_start` / `box_end` pairing: ending a box
whose placeholder sits at `b.length`, with 4-byte tag `t` and payload `p`
written after it, patches the byte extent of the box (mod 2^32) into the
length field and leaves every other byte unchanged. -/
theorem box_end_spec (b t p : Bytes) (ht : t.length = 4) :
    box_end (b ++ (be32 0 ++ (t ++ p))) b.length =
      b ++ (be32 (8 + p.length) ++ (t ++ p)) := by
  have hlen : (b ++ (be32 0 ++ (t ++ p))).length - b.length = 8 + p.length := by
    simp [ht]; omega
  have h0 : b.length = b.length + 0 := rfl
  rw [box_end, hlen, h0, patch_u32_append]
  have : be32 0 ++ (t ++ p) = 0 :: 0 :: 0 :: 0 :: (t ++ p) := rfl
  rw [this, patch_u32_zero]

theorem readU32_append_right (xs ys : Bytes) (k : Nat) :
    readU32 (xs ++ ys) (xs.length + k) = readU32 ys k := by
  have h1 : xs.length + k + 1 = xs.length + (k + 1) := by omega
  have h2 : xs.length + k + 2 = xs.length + (k + 2) := by omega
  have h3 : xs.length + k + 3 = xs.length + (k + 3) := by omega
  simp only [readU32, h1, h2, h3]
  rw [List.getD_append_right _ _ _ _ (Nat.le_add_right _ _),
    List.getD_append_right _ _ _ _ (Nat.le_add_right _ _),
    List.getD_append_right _ _ _ _ (Nat.le_add_right _ _),
    List.getD_append_right _ _ _ _ (Nat.le_add_right _ _),
    Nat.add_sub_cancel_left, Nat.add_sub_cancel_left, Nat.add_sub_cancel_left,
    Nat.add_sub_cancel_left]

theorem readU32_be32 (v : Nat) (rest : Bytes) :
    readU32 (be32 v ++ rest) 0 = v % 2 ^ 32 := by
  simp [readU32, be32, List.getD]
  omega

theorem parseBoxes_nil : parseBoxes [] = true := by
  rw [parseBoxes]
  simp

theorem readU32_append_left (xs ys : Bytes) (i : Nat) (h : i + 4 ≤ xs.length) :
    readU32 (xs ++ ys) i = readU32 xs i := by
  have g1 : i < xs.length := by omega
  have g2 : i + 1 < xs.length := by omega
  have g3 : i + 2 < xs.length := by omega
  have g4 : i + 3 < xs.length := by omega
  rw [readU32, readU32, List.getD_append _ _ _ _ g1, List.getD_append _ _ _ _ g2,
    List.getD_append _ _ _ _ g3, List.getD_append _ _ _ _ g4]

theorem parseBoxes_append (x y : Bytes) (hx : WellSized x) :
    parseBoxes (x ++ y) = parseBoxes y := by
  obtain ⟨h8, hlt, hread⟩ := hx
  have hxne : x ≠ [] := by
    intro h
    subst h
    simp at h8
  have hne : x ++ y ≠ [] := fun h => hxne (List.append_eq_nil.mp h).1
  rw [parseBoxes]
  have hr : readU32 (x ++ y) 0 = x.length := by
    rw [readU32_append_left x y 0 (by omega)]
    exact hread
  simp only [hne, dif_neg, hr, not_false_eq_true]
  have hcond : 8 ≤ x.length ∧ x.length ≤ (x ++ y).length := by
    refine ⟨h8, ?_⟩
    simp
  rw [dif_pos hcond]
  congr 1
  exact List.drop_left x y


theorem box_end_append (b ys : Bytes) :
    box_end (b ++ ys) b.length = b ++ box_end ys 0 := by
  rw [box_end, box_end]
  have h : (b ++ ys).length - b.length = ys.length - 0 := by simp
  rw [h]
  have h0 : b.length = b.length + 0 := rfl
  rw [h0, patch_u32_append]

theorem box_end_append_k (b ys : Bytes) (k : Nat) :
    box_end (b ++ ys) (b.length + k) = b ++ box_end ys k := by
  rw [box_end, box_end]
  have h : (b ++ ys).length - (b.length + k) = ys.length - k := by
    simp
    omega
  rw [h, patch_u32_append]

/-- `box_end_spec` specialized to a box starting at offset 0. -/
theorem box_end_spec_nil (t p : Bytes) (ht : t.length = 4) :
    box_end (be32 0 ++ (t ++ p)) 0 = be32 (8 + p.length) ++ (t ++ p) := by
  have h := box_end_spec [] t p ht
  simpa using h

theorem getD_patch_ne (b : Bytes) (off v j : Nat) (h : j < off ∨ off + 3 < j) :
    (patch_u32 b off v).getD j 0 = b.getD j 0 := by
  simp only [patch_u32, List.getD, List.get?_eq_getElem?]
  rw [List.getElem?_set_ne (by omega), List.getElem?_set_ne (by omega),
    List.getElem?_set_ne (by omega), List.getElem?_set_ne (by omega)]

theorem readU32_patch_disjoint (b : Bytes) (off v i : Nat)
    (h : i + 4 ≤ off ∨ off + 4 ≤ i) :
    readU32 (patch_u32 b off v) i = readU32 b i := by
  simp only [readU32]
  rw [getD_patch_ne _ _ _ _ (by omega), getD_patch_ne _ _ _ _ (by omega),
    getD_patch_ne _ _ _ _ (by omega), getD_patch_ne _ _ _ _ (by omega)]

theorem readU32_box_end_disjoint (x : Bytes) (off i : Nat)
    (h : i + 4 ≤ off ∨ off + 4 ≤ i) :
    readU32 (box_end x off) i = readU32 x i :=
  readU32_patch_disjoint x off _ i h

/-- Ending a box that spans the whole buffer stamps the buffer's length
(mod 2^32) into its first four bytes. -/
theorem readU32_box_end_zero (x : Bytes) (h : 4 ≤ x.length) :
    readU32 (box_end x 0) 0 = x.length % 2 ^ 32 := by
  match x, h with
  | a :: b :: c :: d :: rest, _ =>
    rw [box_end, patch_u32_zero, readU32_be32]
    simp

@[simp] theorem u32list_length (l : List Nat) : (u32list l).length = 4 * l.length := by
  induction l with
  | nil => simp [u32list]
  | cons x xs ih => simp [u32list] at ih ⊢; omega

@[simp] theorem entriesBytes_length (es : List (Nat × Nat)) :
    (entriesBytes es).length = 8 * es.length := by
  induction es with
  | nil => simp [entriesBytes]
  | cons e es ih => simp [entriesBytes] at ih ⊢; omega

@[simp] theorem fourcc_ftyp_length : (fourcc_ftyp).length = 4 := rfl
@[simp] theorem fourcc_isom_length : (fourcc_isom).length = 4 := rfl
@[simp] theorem fourcc_iso2_length : (fourcc_iso2).length = 4 := rfl
@[simp] theorem fourcc_avc1_length : (fourcc_avc1).length = 4 := rfl
@[simp] theorem fourcc_mp41_length : (fourcc_mp41).length = 4 := rfl
@[simp] theorem fourcc_mdat_length : (fourcc_mdat).length = 4 := rfl
@[simp] theorem fourcc_moov_length : (fourcc_moov).length = 4 := rfl
@[simp] theorem fourcc_mvhd_length : (fourcc_mvhd).length = 4 := rfl
@[simp] theorem fourcc_trak_length : (fourcc_trak).length = 4 := rfl
@[simp] theorem fourcc_tkhd_length : (fourcc_tkhd).length = 4 := rfl
@[simp] theorem fourcc_mdia_length : (fourcc_mdia).length = 4 := rfl
@[simp] theorem fourcc_mdhd_length : (fourcc_mdhd).length = 4 := rfl
@[simp] theorem fourcc_hdlr_length : (fourcc_hdlr).length = 4 := rfl
@[simp] theorem fourcc_vide_length : (fourcc_vide).length = 4 := rfl
@[simp] theorem fourcc_minf_length : (fourcc_minf).length = 4 := rfl
@[simp] theorem fourcc_vmhd_length : (fourcc_vmhd).length = 4 := rfl
@[simp] theorem fourcc_dinf_length : (fourcc_dinf).length = 4 := rfl
@[simp] theorem fourcc_dref_length : (fourcc_dref).length = 4 := rfl
@[simp] theorem fourcc_url_length : (fourcc_url).length = 4 := rfl
@[simp] theorem fourcc_stbl_length : (fourcc_stbl).length = 4 := rfl
@[simp] theorem fourcc_stsd_length : (fourcc_stsd).length = 4 := rfl
@[simp] theorem fourcc_stts_length : (fourcc_stts).length = 4 := rfl
@[simp] theorem fourcc_stsc_length : (fourcc_stsc).length = 4 := rfl
@[simp] theorem fourcc_stsz_length : (fourcc_stsz).length = 4 := rfl
@[simp] theorem fourcc_stco_length : (fourcc_stco).length = 4 := rfl
@[simp] theorem fourcc_stss_length : (fourcc_stss).length = 4 := rfl
@[simp] theorem fourcc_avcC_length : (fourcc_avcC).length = 4 := rfl
@[simp] theorem fourcc_raw_length : (fourcc_raw).length = 4 := rfl
@[simp] theorem video_handler_name_length : Raw.video_handler_name.length = 13 := rfl
@[simp] theorem fallback_avcC_bytes_length : Web.fallback_avcC_bytes.length = 7 := rfl

theorem runLen_le (d : Nat) (l : List Nat) : Raw.runLen d l ≤ l.length := by
  induction l with
  | nil => simp [Raw.runLen]
  | cons x xs ih =>
    by_cases hx : x = d <;> simp [Raw.runLen, hx] <;> omega

/-- One greedy step of `spec_rle`: the head element absorbs exactly the
run of equal elements that follows it. -/
theorem spec_rle_cons (d : Nat) (rest : List Nat) :
    spec_rle (d :: rest) =
      (1 + Raw.runLen d rest, d) :: spec_rle (rest.drop (Raw.runLen d rest)) := by
  induction rest generalizing d with
  | nil => simp [spec_rle, Raw.runLen]
  | cons x xs ih =>
    have hx : spec_rle (x :: xs) =
        (1 + Raw.runLen x xs, x) :: spec_rle (xs.drop (Raw.runLen x xs)) := ih x
    by_cases hdx : x = d
    · subst hdx
      have hr : Raw.runLen x (x :: xs) = Raw.runLen x xs + 1 := by simp [Raw.runLen]
      have hd : (x :: xs).drop (Raw.runLen x xs + 1) = xs.drop (Raw.runLen x xs) := by
        simp
      rw [hr, hd]
      show spec_rle (x :: x :: xs) = _
      rw [show spec_rle (x :: x :: xs) =
        (match spec_rle (x :: xs) with
          | [] => [(1, x)]
          | (c, e) :: rest =>
            if x = e then (c + 1, e) :: rest else (1, x) :: (c, e) :: rest) from by
          simp [spec_rle]]
      rw [hx]
      simp
      omega
    · have hr : Raw.runLen d (x :: xs) = 0 := by simp [Raw.runLen, hdx]
      rw [hr]
      rw [show spec_rle (d :: x :: xs) =
        (match spec_rle (x :: xs) with
          | [] => [(1, d)]
          | (c, e) :: rest =>
            if d = e then (c + 1, e) :: rest else (1, d) :: (c, e) :: rest) from by
          simp [spec_rle]]
      rw [hx]
      have : ¬ (d = x) := fun h => hdx h.symm
      simp [this, hx]

theorem stts_entry_count_loop_eq :
    ∀ (fuel : Nat) (ds : List Nat), ds.length ≤ fuel →
      Raw.stts_entry_count_loop fuel ds = (spec_rle ds).length := by
  intro fuel
  induction fuel with
  | zero =>
    intro ds h
    match ds, h with
    | [], _ => simp [Raw.stts_entry_count_loop, spec_rle]
  | succ n ih =>
    intro ds h
    match ds with
    | [] => simp [Raw.stts_entry_count_loop, spec_rle]
    | d :: rest =>
      rw [Raw.stts_entry_count_loop, spec_rle_cons, ih]
      · simp
      · simp only [List.length_drop]
        simp only [List.length_cons] at h
        omega

/-- The counting pass of C `wr_stts` counts exactly the greedy RLE
entries. -/
theorem stts_entry_count_eq (ds : List Nat) :
    Raw.stts_entry_count ds = (spec_rle ds).length :=
  stts_entry_count_loop_eq ds.length ds (Nat.le_refl _)

theorem stts_write_entries_loop_eq :
    ∀ (fuel : Nat) (ds : List Nat) (b : Bytes), ds.length ≤ fuel →
      Raw.stts_write_entries_loop fuel b ds = b ++ entriesBytes (spec_rle ds) := by
  intro fuel
  induction fuel with
  | zero =>
    intro ds b h
    match ds, h with
    | [], _ => simp [Raw.stts_write_entries_loop, spec_rle, entriesBytes]
  | succ n ih =>
    intro ds b h
    match ds with
    | [] => simp [Raw.stts_write_entries_loop, spec_rle, entriesBytes]
    | d :: rest =>
      rw [Raw.stts_write_entries_loop, ih, spec_rle_cons]
      · simp [entriesBytes, wr_u32, List.append_assoc]
      · simp only [List.length_drop]
        simp only [List.length_cons] at h
        omega

/-- The writing pass of C `wr_stts` writes exactly the greedy RLE
entries, in order. -/
theorem stts_write_entries_eq (ds : List Nat) (b : Bytes) :
    Raw.stts_write_entries b ds = b ++ entriesBytes (spec_rle ds) :=
  stts_write_entries_loop_eq ds.length ds b (Nat.le_refl _)

/-- The frame-writing loop of the raw `wr_mdat` appends the payloads of
all frames. -/
theorem raw_mdat_fold (fs : List Raw.FrameData) (B : Bytes) :
    fs.foldl (fun b f => wr_bytes b f.rgb_data) B = B ++ Raw.frames_payload fs := by
  induction fs generalizing B with
  | nil => simp [Raw.frames_payload]
  | cons f t ih =>
    rw [List.foldl_cons, ih]
    simp [Raw.frames_payload, wr_bytes, List.append_assoc]

/-- The frame-writing loop of the WebCodecs `write_mdat` appends each
sample's 4-byte length prefix and payload. -/
theorem web_mdat_fold (fs : List Web.Frame) (B : Bytes) :
    fs.foldl (fun b f => wr_bytes (wr_u32 b f.data.length) f.data) B =
      B ++ Web.frames_payload fs := by
  induction fs generalizing B with
  | nil => simp [Web.frames_payload]
  | cons f t ih =>
    rw [List.foldl_cons, ih]
    simp [Web.frames_payload, wr_bytes, wr_u32, List.append_assoc]

/-- The size-writing loop of the raw `wr_stsz`. -/
theorem raw_stsz_fold (ss : List Nat) (B : Bytes) :
    ss.foldl (fun b sz => wr_u32 b sz) B = B ++ u32list ss := by
  induction ss generalizing B with
  | nil => simp [u32list]
  | cons s t ih =>
    rw [List.foldl_cons, ih]
    simp [u32list, wr_u32, List.append_assoc]

/-- The size-writing loop of the WebCodecs `write_stsz`. -/
theorem web_stsz_fold (fs : List Web.Frame) (B : Bytes) :
    fs.foldl (fun b f => wr_u32 b (f.data.length + 4)) B =
      B ++ u32list (fs.map (fun f => f.data.length + 4)) := by
  induction fs generalizing B with
  | nil => simp [u32list]
  | cons f t ih =>
    rw [List.foldl_cons, ih]
    simp [u32list, wr_u32, List.append_assoc]

/-- The entry loop of the WebCodecs `write_stss` writes exactly the
1-indexed keyframe positions. -/
theorem stss_write_eq (fs : List Web.Frame) (B : Bytes) (i : Nat) :
    Web.stss_write B fs i = B ++ u32list (Web.sync_positions fs i) := by
  induction fs generalizing B i with
  | nil => simp [Web.stss_write, Web.sync_positions, u32list]
  | cons f t ih =>
    by_cases hf : f.is_keyframe <;>
      rw [Web.stss_write] <;>
      simp only [hf, if_true, if_false, Bool.false_eq_true] <;>
      rw [ih] <;>
      simp [Web.sync_positions, hf, wr_u32, u32list, List.append_assoc]

theorem wr_ftyp_inv (b : Bytes) : Raw.wr_ftyp b = b ++ Raw.wr_ftyp [] := by
  simp only [Raw.wr_ftyp, box_start, wr_u8, wr_u16, wr_u32, wr_bytes,
    List.append_assoc, List.nil_append, List.length_nil]
  rw [box_end_append]

theorem wr_mvhd_inv (b : Bytes) (scale dur : Nat) :
    Raw.wr_mvhd b scale dur = b ++ Raw.wr_mvhd [] scale dur := by
  simp only [Raw.wr_mvhd, box_start, wr_u8, wr_u16, wr_u32, wr_bytes,
    List.append_assoc, List.nil_append, List.length_nil]
  rw [box_end_append]

theorem wr_tkhd_inv (b : Bytes) (dur w h : Nat) :
    Raw.wr_tkhd b dur w h = b ++ Raw.wr_tkhd [] dur w h := by
  simp only [Raw.wr_tkhd, box_start, wr_u8, wr_u16, wr_u32, wr_bytes,
    List.append_assoc, List.nil_append, List.length_nil]
  rw [box_end_append]

theorem wr_mdhd_inv (b : Bytes) (scale dur : Nat) :
    Raw.wr_mdhd b scale dur = b ++ Raw.wr_mdhd [] scale dur := by
  simp only [Raw.wr_mdhd, box_start, wr_u8, wr_u16, wr_u32, wr_bytes,
    List.append_assoc, List.nil_append, List.length_nil]
  rw [box_end_append]

theorem wr_hdlr_inv (b : Bytes) : Raw.wr_hdlr b = b ++ Raw.wr_hdlr [] := by
  simp only [Raw.wr_hdlr, box_start, wr_u8, wr_u16, wr_u32, wr_bytes,
    List.append_assoc, List.nil_append, List.length_nil]
  rw [box_end_append]

theorem wr_vmhd_inv (b : Bytes) : Raw.wr_vmhd b = b ++ Raw.wr_vmhd [] := by
  simp only [Raw.wr_vmhd, box_start, wr_u8, wr_u16, wr_u32, wr_bytes,
    List.append_assoc, List.nil_append, List.length_nil]
  rw [box_end_append]

theorem wr_dref_inv (b : Bytes) : Raw.wr_dref b = b ++ Raw.wr_dref [] := by
  simp only [Raw.wr_dref, box_start, wr_u8, wr_u16, wr_u32, wr_bytes,
    List.append_assoc, List.nil_append, List.length_append, List.length_cons,
    List.length_nil, be32_length, box_end_length]
  rw [box_end_append_k, box_end_append]

theorem wr_stsd_inv (b : Bytes) (w h : Nat) :
    Raw.wr_stsd b w h = b ++ Raw.wr_stsd [] w h := by
  simp only [Raw.wr_stsd, box_start, wr_u8, wr_u16, wr_u32, wr_bytes,
    List.append_assoc, List.nil_append, List.length_append, List.length_cons,
    List.length_nil, be32_length, box_end_length, List.length_replicate]
  rw [box_end_append_k, box_end_append]

/-- C `wr_stts` writes exactly the greedy RLE of the delays: the entry
count is `(spec_rle deltas).length` and the entries are the `spec_rle`
pairs in order. -/
theorem wr_stts_eq (b : Bytes) (ds : List Nat) :
    Raw.wr_stts b ds =
      b ++ (be32 (8 + (Raw.stts_payload ds).length) ++
        (fourcc_stts ++ Raw.stts_payload ds)) := by
  simp only [Raw.wr_stts, box_start, wr_u8, wr_u16, wr_u32, wr_bytes,
    List.append_assoc]
  rw [stts_write_entries_eq, stts_entry_count_eq]
  simp only [List.append_assoc]
  rw [box_end_spec]
  · simp [Raw.stts_payload, List.append_assoc]
  · rfl

theorem wr_stsc_inv (b : Bytes) (count : Nat) :
    Raw.wr_stsc b count = b ++ Raw.wr_stsc [] count := by
  simp only [Raw.wr_stsc, box_start, wr_u8, wr_u16, wr_u32, wr_bytes,
    List.append_assoc, List.nil_append, List.length_nil]
  rw [box_end_append]

/-- C `wr_stsz` writes the shared-size form exactly when every sample size
equals the first, and the variable form with the explicit per-sample list
otherwise. -/
theorem wr_stsz_eq (b : Bytes) (ss : List Nat) :
    Raw.wr_stsz b ss =
      b ++ (if Raw.all_same ss then
        be32 (8 + (Raw.stsz_shared_payload ss).length) ++
          (fourcc_stsz ++ Raw.stsz_shared_payload ss)
      else
        be32 (8 + (Raw.stsz_var_payload ss).length) ++
          (fourcc_stsz ++ Raw.stsz_var_payload ss)) := by
  by_cases h : Raw.all_same ss
  · simp only [Raw.wr_stsz, box_start, wr_u8, wr_u16, wr_u32, wr_bytes, h,
      if_true, List.append_assoc]
    rw [box_end_spec]
    · simp [Raw.stsz_shared_payload, List.append_assoc]
    · rfl
  · simp only [Raw.wr_stsz, box_start, h, if_false, Bool.false_eq_true]
    rw [raw_stsz_fold]
    simp only [wr_u8, wr_u16, wr_u32, wr_bytes, List.append_assoc]
    rw [box_end_spec]
    · simp [Raw.stsz_var_payload, List.append_assoc]
    · rfl

/-- C `wr_stco` writes the single chunk-offset entry verbatim. -/
theorem wr_stco_eq (b : Bytes) (off : Nat) :
    Raw.wr_stco b off =
      b ++ (be32 20 ++ (fourcc_stco ++ ([0, 0, 0, 0] ++ (be32 1 ++ be32 off)))) := by
  simp only [Raw.wr_stco, box_start, wr_u8, wr_u16, wr_u32, wr_bytes,
    List.append_assoc]
  rw [box_end_spec]
  · simp [List.append_assoc]
  · rfl

/-- C `wr_mdat` (raw variant) is the mdat box around the concatenated
frame payloads. -/
theorem wr_mdat_eq (b : Bytes) (fs : List Raw.FrameData) :
    Raw.wr_mdat b fs =
      b ++ (be32 (8 + (Raw.frames_payload fs).length) ++
        (fourcc_mdat ++ Raw.frames_payload fs)) := by
  simp only [Raw.wr_mdat, box_start]
  rw [raw_mdat_fold]
  simp only [wr_u8, wr_u16, wr_u32, wr_bytes, List.append_assoc]
  rw [box_end_spec]
  rfl

theorem wr_stbl_inv (b : Bytes) (w h : Nat) (ss ds : List Nat) (c off : Nat) :
    Raw.wr_stbl b w h ss ds c off = b ++ Raw.wr_stbl [] w h ss ds c off := by
  simp only [Raw.wr_stbl, box_start, wr_u8, wr_u16, wr_u32, wr_bytes]
  conv_lhs => rw [wr_stsd_inv, wr_stts_eq, wr_stsc_inv, wr_stsz_eq, wr_stco_eq]
  conv_rhs => rw [wr_stsd_inv, wr_stts_eq, wr_stsc_inv, wr_stsz_eq, wr_stco_eq]
  simp only [List.append_assoc, List.nil_append, List.length_nil]
  rw [box_end_append]

theorem write_ftyp_inv (b : Bytes) : Web.write_ftyp b = b ++ Web.write_ftyp [] := by
  simp only [Web.write_ftyp, box_start, wr_u8, wr_u16, wr_u32, wr_bytes,
    List.append_assoc, List.nil_append, List.length_nil]
  rw [box_end_append]

/-- C `write_mdat` (webcodecs variant) is the mdat box around the
length-prefixed sample payloads. -/
theorem write_mdat_eq (b : Bytes) (fs : List Web.Frame) :
    Web.write_mdat b fs =
      b ++ (be32 (8 + (Web.frames_payload fs).length) ++
        (fourcc_mdat ++ Web.frames_payload fs)) := by
  simp only [Web.write_mdat, box_start]
  rw [web_mdat_fold]
  simp only [wr_u8, wr_u16, wr_u32, wr_bytes, List.append_assoc]
  rw [box_end_spec]
  rfl

theorem write_fallback_avcC_eq (b : Bytes) :
    Web.write_fallback_avcC b = b ++ Web.fallback_avcC_bytes := by
  simp [Web.write_fallback_avcC, Web.fallback_avcC_bytes, wr_u8]

/-- The `avcC` box contains exactly the supplied configuration record when
one is present and non-empty, and exactly the fallback record otherwise. -/
theorem write_avc1_avcC_eq (b : Bytes) (m : Web.Muxer) :
    Web.write_avc1_avcC b m =
      b ++ (be32 (8 + (Web.avcC_content m).length) ++
        (fourcc_avcC ++ Web.avcC_content m)) := by
  rcases hc : m.decoder_config with _ | cfg
  · simp only [Web.write_avc1_avcC, Web.avcC_content, box_start, hc]
    rw [write_fallback_avcC_eq]
    simp only [wr_u8, wr_u16, wr_u32, wr_bytes, List.append_assoc]
    rw [box_end_spec]
    rfl
  · by_cases hlen : 0 < cfg.length
    · simp only [Web.write_avc1_avcC, Web.avcC_content, box_start, hc, hlen,
        if_true]
      simp only [wr_u8, wr_u16, wr_u32, wr_bytes, List.append_assoc]
      rw [box_end_spec]
      rfl
    · simp only [Web.write_avc1_avcC, Web.avcC_content, box_start, hc, hlen,
        if_false]
      rw [write_fallback_avcC_eq]
      simp only [wr_u8, wr_u16, wr_u32, wr_bytes, List.append_assoc]
      rw [box_end_spec]
      rfl

/-- C `write_avc1` is the avc1 box: the 78 visual sample entry bytes and
the nested `avcC` box. -/
theorem write_avc1_eq (b : Bytes) (m : Web.Muxer) :
    Web.write_avc1 b m =
      b ++ (be32 (8 + (Web.avc1_visual m ++ Web.write_avc1_avcC [] m).length) ++
        (fourcc_avc1 ++ (Web.avc1_visual m ++ Web.write_avc1_avcC [] m))) := by
  simp only [Web.write_avc1, box_start]
  conv_lhs => rw [write_avc1_avcC_eq]
  conv_rhs => rw [write_avc1_avcC_eq]
  simp only [wr_u8, wr_u16, wr_u32, wr_bytes, List.append_assoc, List.nil_append]
  rw [box_end_spec]
  · simp [Web.avc1_visual, List.append_assoc]
  · rfl

theorem write_stsd_inv (b : Bytes) (m : Web.Muxer) :
    Web.write_stsd b m = b ++ Web.write_stsd [] m := by
  simp only [Web.write_stsd, box_start]
  conv_lhs => rw [write_avc1_eq]
  conv_rhs => rw [write_avc1_eq]
  simp only [wr_u8, wr_u16, wr_u32, wr_bytes, List.append_assoc,
    List.nil_append, List.length_nil]
  rw [box_end_append]

/-- C `write_stts` (webcodecs variant) writes exactly one entry: the
sample count with the averaged delta. -/
theorem write_stts_eq (b : Bytes) (m : Web.Muxer) :
    Web.write_stts b m =
      b ++ (be32 (8 + (Web.stts_payload m).length) ++
        (fourcc_stts ++ Web.stts_payload m)) := by
  simp only [Web.write_stts, box_start, wr_u8, wr_u16, wr_u32, wr_bytes,
    List.append_assoc]
  rw [box_end_spec]
  · simp [Web.stts_payload, List.append_assoc]
  · rfl

theorem write_stsc_inv (b : Bytes) (m : Web.Muxer) :
    Web.write_stsc b m = b ++ Web.write_stsc [] m := by
  simp only [Web.write_stsc, box_start, wr_u8, wr_u16, wr_u32, wr_bytes,
    List.append_assoc, List.nil_append, List.length_nil]
  rw [box_end_append]

/-- C `write_stsz` (webcodecs variant) always writes the variable form:
sample-size field 0 and one `size + 4` entry per sample, in order. -/
theorem write_stsz_eq (b : Bytes) (m : Web.Muxer) :
    Web.write_stsz b m =
      b ++ (be32 (8 + (Web.stsz_payload m.frames).length) ++
        (fourcc_stsz ++ Web.stsz_payload m.frames)) := by
  simp only [Web.write_stsz, box_start]
  rw [web_stsz_fold]
  simp only [wr_u8, wr_u16, wr_u32, wr_bytes, List.append_assoc]
  rw [box_end_spec]
  · simp [Web.stsz_payload, List.append_assoc]
  · rfl

/-- C `write_stco` (webcodecs variant): the single entry `mdat_offset + 8`. -/
theorem write_stco_eq (b : Bytes) (mdat_offset : Nat) :
    Web.write_stco b mdat_offset =
      b ++ (be32 20 ++ (fourcc_stco ++
        (be32 0 ++ (be32 1 ++ be32 (mdat_offset + 8))))) := by
  simp only [Web.write_stco, box_start, wr_u8, wr_u16, wr_u32, wr_bytes,
    List.append_assoc]
  rw [box_end_spec]
  · simp [List.append_assoc]
  · rfl

/-- C `write_stss`: omitted exactly when no sample is a keyframe;
otherwise the count and the 1-indexed keyframe positions in order. -/
theorem write_stss_eq (b : Bytes) (m : Web.Muxer) :
    Web.write_stss b m =
      if Web.keyframe_count m.frames = 0 then b
      else
        b ++ (be32 (8 + (Web.stss_payload m.frames).length) ++
          (fourcc_stss ++ Web.stss_payload m.frames)) := by
  by_cases h : Web.keyframe_count m.frames = 0
  · simp [Web.write_stss, h]
  · simp only [Web.write_stss, h, if_false, box_start]
    rw [stss_write_eq]
    simp only [wr_u8, wr_u16, wr_u32, wr_bytes, List.append_assoc]
    rw [box_end_spec]
    · simp [Web.stss_payload, List.append_assoc]
    · rfl

theorem write_stbl_inv (b : Bytes) (m : Web.Muxer) (off : Nat) :
    Web.write_stbl b m off = b ++ Web.write_stbl [] m off := by
  by_cases h : Web.keyframe_count m.frames = 0
  · simp only [Web.write_stbl, box_start]
    conv_lhs => rw [write_stsd_inv, write_stts_eq, write_stsc_inv, write_stsz_eq,
      write_stco_eq, write_stss_eq]
    conv_rhs => rw [write_stsd_inv, write_stts_eq, write_stsc_inv, write_stsz_eq,
      write_stco_eq, write_stss_eq]
    simp only [h, if_true]
    simp only [wr_u8, wr_u16, wr_u32, wr_bytes, List.append_assoc,
      List.nil_append, List.length_nil]
    rw [box_end_append]
  · simp only [Web.write_stbl, box_start]
    conv_lhs => rw [write_stsd_inv, write_stts_eq, write_stsc_inv, write_stsz_eq,
      write_stco_eq, write_stss_eq]
    conv_rhs => rw [write_stsd_inv, write_stts_eq, write_stsc_inv, write_stsz_eq,
      write_stco_eq, write_stss_eq]
    simp only [h, if_false]
    simp only [wr_u8, wr_u16, wr_u32, wr_bytes, List.append_assoc,
      List.nil_append, List.length_nil]
    rw [box_end_append]

theorem write_minf_inv (b : Bytes) (m : Web.Muxer) (off : Nat) :
    Web.write_minf b m off = b ++ Web.write_minf [] m off := by
  simp only [Web.write_minf, box_start]
  conv_lhs => rw [write_stbl_inv]
  conv_rhs => rw [write_stbl_inv]
  simp [wr_u8, wr_u16, wr_u32, wr_bytes, List.append_assoc, Nat.add_assoc]
  rw [box_end_append_k]
  try simp [List.append_assoc, Nat.add_assoc]
  rw [box_end_append_k]
  try simp [List.append_assoc, Nat.add_assoc]
  rw [box_end_append_k]
  try simp [List.append_assoc, Nat.add_assoc]
  rw [box_end_append_k]
  try simp [List.append_assoc, Nat.add_assoc]
  rw [box_end_append]

theorem write_mdia_inv (b : Bytes) (m : Web.Muxer) (off : Nat) :
    Web.write_mdia b m off = b ++ Web.write_mdia [] m off := by
  simp only [Web.write_mdia, box_start]
  conv_lhs => rw [write_minf_inv]
  conv_rhs => rw [write_minf_inv]
  simp [wr_u8, wr_u16, wr_u32, wr_bytes, List.append_assoc, Nat.add_assoc]
  rw [box_end_append_k]
  try simp [List.append_assoc, Nat.add_assoc]
  rw [box_end_append_k]
  try simp [List.append_assoc, Nat.add_assoc]
  rw [box_end_append]

theorem write_trak_inv (b : Bytes) (m : Web.Muxer) (off : Nat) :
    Web.write_trak b m off = b ++ Web.write_trak [] m off := by
  simp only [Web.write_trak, box_start]
  conv_lhs => rw [write_mdia_inv]
  conv_rhs => rw [write_mdia_inv]
  simp [wr_u8, wr_u16, wr_u32, wr_bytes, List.append_assoc, Nat.add_assoc]
  rw [box_end_append_k]
  try simp [List.append_assoc, Nat.add_assoc]
  rw [box_end_append]

theorem write_moov_inv (b : Bytes) (m : Web.Muxer) (off : Nat) :
    Web.write_moov b m off = b ++ Web.write_moov [] m off := by
  simp only [Web.write_moov, box_start]
  conv_lhs => rw [write_trak_inv]
  conv_rhs => rw [write_trak_inv]
  simp [wr_u8, wr_u16, wr_u32, wr_bytes, List.append_assoc, Nat.add_assoc]
  rw [box_end_append_k]
  try simp [List.append_assoc, Nat.add_assoc]
  rw [box_end_append]

set_option maxRecDepth 8000

set_option maxHeartbeats 3200000

/-- In the container built by the raw muxer's `create_mp4`, the mvhd
duration field (byte offset 64) holds the sum of all frame delays. -/
theorem create_mp4_mvhd_duration (fs : List Raw.FrameData) (w h : Nat) :
    readU32 (Raw.create_mp4 [] fs w h) 64 =
      (fs.map (fun f => f.delay_ms)).sum % 2 ^ 32 := by
  simp only [Raw.create_mp4, box_start]
  rw [wr_stbl_inv, wr_mdat_eq]
  simp only [Raw.wr_ftyp, Raw.wr_mvhd, Raw.wr_tkhd, Raw.wr_mdhd, Raw.wr_hdlr,
    Raw.wr_vmhd, Raw.wr_dref, box_start, wr_u8, wr_u16, wr_u32, wr_bytes,
    List.append_assoc, List.nil_append, List.length_nil]
  simp [box_end, patch_u32, readU32, List.getD, be32, fourcc_ftyp, fourcc_isom,
    fourcc_iso2, fourcc_avc1, fourcc_mp41, fourcc_moov, fourcc_mvhd,
    List.getElem?_append_right, List.getElem?_cons_succ]
  omega

/-- In the container built by the raw muxer's `create_mp4`, the tkhd
duration field (byte offset 184) holds the sum of all frame delays. -/
theorem create_mp4_tkhd_duration (fs : List Raw.FrameData) (w h : Nat) :
    readU32 (Raw.create_mp4 [] fs w h) 184 =
      (fs.map (fun f => f.delay_ms)).sum % 2 ^ 32 := by
  simp only [Raw.create_mp4, box_start]
  rw [wr_stbl_inv, wr_mdat_eq]
  simp only [Raw.wr_ftyp, Raw.wr_mvhd, Raw.wr_tkhd, Raw.wr_mdhd, Raw.wr_hdlr,
    Raw.wr_vmhd, Raw.wr_dref, box_start, wr_u8, wr_u16, wr_u32, wr_bytes,
    List.append_assoc, List.nil_append, List.length_nil]
  simp [box_end, patch_u32, readU32, List.getD, be32, fourcc_ftyp, fourcc_isom,
    fourcc_iso2, fourcc_avc1, fourcc_mp41, fourcc_moov, fourcc_mvhd,
    fourcc_trak, fourcc_tkhd,
    List.getElem?_append_right, List.getElem?_cons_succ]
  omega

/-- In the container built by the raw muxer's `create_mp4`, the mdhd
duration field (byte offset 280) holds the sum of all frame delays. -/
theorem create_mp4_mdhd_duration (fs : List Raw.FrameData) (w h : Nat) :
    readU32 (Raw.create_mp4 [] fs w h) 280 =
      (fs.map (fun f => f.delay_ms)).sum % 2 ^ 32 := by
  simp only [Raw.create_mp4, box_start]
  rw [wr_stbl_inv, wr_mdat_eq]
  simp only [Raw.wr_ftyp, Raw.wr_mvhd, Raw.wr_tkhd, Raw.wr_mdhd, Raw.wr_hdlr,
    Raw.wr_vmhd, Raw.wr_dref, box_start, wr_u8, wr_u16, wr_u32, wr_bytes,
    List.append_assoc, List.nil_append, List.length_nil]
  simp [box_end, patch_u32, readU32, List.getD, be32, fourcc_ftyp, fourcc_isom,
    fourcc_iso2, fourcc_avc1, fourcc_mp41, fourcc_moov, fourcc_mvhd,
    fourcc_trak, fourcc_tkhd, fourcc_mdia, fourcc_mdhd,
    List.getElem?_append_right, List.getElem?_cons_succ]
  omega

/-- In the WebCodecs moov box, the mvhd duration field (byte offset 32)
holds the last timestamp converted from microseconds to milliseconds. -/
theorem write_moov_mvhd_duration (m : Web.Muxer) (off : Nat) :
    readU32 (Web.write_moov [] m off) 32 = Web.movie_duration m % 2 ^ 32 := by
  simp only [Web.write_moov, box_start]
  rw [write_trak_inv]
  simp only [wr_u8, wr_u16, wr_u32, wr_bytes, List.append_assoc, List.nil_append,
    List.length_nil]
  simp [box_end, patch_u32, readU32, List.getD, be32, fourcc_moov, fourcc_mvhd,
    List.getElem?_append_right, List.getElem?_cons_succ]
  omega

/-- In the WebCodecs moov box, the tkhd duration field (byte offset 156)
holds the same milliseconds value as the mvhd duration. -/
theorem write_moov_tkhd_duration (m : Web.Muxer) (off : Nat) :
    readU32 (Web.write_moov [] m off) 156 = Web.movie_duration m % 2 ^ 32 := by
  simp only [Web.write_moov, Web.write_trak, box_start]
  rw [write_mdia_inv]
  simp only [wr_u8, wr_u16, wr_u32, wr_bytes, List.append_assoc, List.nil_append,
    List.length_nil]
  simp [box_end, patch_u32, readU32, List.getD, be32, fourcc_moov, fourcc_mvhd,
    fourcc_trak, fourcc_tkhd, List.getElem?_append_right, List.getElem?_cons_succ]
  omega

/-- In the WebCodecs moov box, the mdhd duration field (byte offset 256)
holds the last timestamp scaled to the 30000 timescale — a value distinct
from the mvhd/tkhd milliseconds value. -/
theorem write_moov_mdhd_duration (m : Web.Muxer) (off : Nat) :
    readU32 (Web.write_moov [] m off) 256 = Web.mdhd_duration m % 2 ^ 32 := by
  simp only [Web.write_moov, Web.write_trak, Web.write_mdia, box_start]
  rw [write_minf_inv]
  simp only [wr_u8, wr_u16, wr_u32, wr_bytes, List.append_assoc, List.nil_append,
    List.length_nil]
  simp [box_end, patch_u32, readU32, List.getD, be32, fourcc_moov, fourcc_mvhd,
    fourcc_trak, fourcc_tkhd, fourcc_mdia, fourcc_mdhd, fourcc_hdlr, fourcc_vide,
    List.getElem?_append_right, List.getElem?_cons_succ]
  omega

@[simp] theorem avc1_visual_length (m : Web.Muxer) :
    (Web.avc1_visual m).length = 78 := by
  simp [Web.avc1_visual]

theorem avcC_content_length (m : Web.Muxer) :
    (Web.avcC_content m).length = Web.avcC_content_len m := by
  rcases hc : m.decoder_config with _ | cfg
  · simp [Web.avcC_content, Web.avcC_content_len, hc]
  · by_cases hl : 0 < cfg.length <;>
      simp [Web.avcC_content, Web.avcC_content_len, hc, hl]

theorem write_ftyp_length (b : Bytes) : (Web.write_ftyp b).length = b.length + 32 := by
  rw [write_ftyp_inv]
  simp only [List.length_append]
  norm_num [show (Web.write_ftyp []).length = 32 from by decide]

theorem write_mdat_length (b : Bytes) (fs : List Web.Frame) :
    (Web.write_mdat b fs).length = b.length + 8 + (Web.frames_payload fs).length := by
  rw [write_mdat_eq]
  simp
  try omega

theorem write_avc1_avcC_length (b : Bytes) (m : Web.Muxer) :
    (Web.write_avc1_avcC b m).length = b.length + 8 + (Web.avcC_content m).length := by
  rw [write_avc1_avcC_eq]
  simp
  try omega

theorem write_avc1_length (b : Bytes) (m : Web.Muxer) :
    (Web.write_avc1 b m).length = b.length + 94 + (Web.avcC_content m).length := by
  rw [write_avc1_eq]
  simp [write_avc1_avcC_length]
  try omega

theorem write_stsd_length (b : Bytes) (m : Web.Muxer) :
    (Web.write_stsd b m).length = b.length + 110 + (Web.avcC_content m).length := by
  simp [Web.write_stsd, box_start, wr_u32, wr_bytes, write_avc1_length]
  try omega

@[simp] theorem web_stts_payload_length (m : Web.Muxer) :
    (Web.stts_payload m).length = 16 := by
  simp [Web.stts_payload]

theorem write_stts_length (b : Bytes) (m : Web.Muxer) :
    (Web.write_stts b m).length = b.length + 24 := by
  rw [write_stts_eq]
  simp

theorem write_stsc_length (b : Bytes) (m : Web.Muxer) :
    (Web.write_stsc b m).length = b.length + 28 := by
  simp [Web.write_stsc, box_start, wr_u32, wr_bytes]
  try omega

@[simp] theorem web_stsz_payload_length (fs : List Web.Frame) :
    (Web.stsz_payload fs).length = 12 + 4 * fs.length := by
  simp [Web.stsz_payload]
  try omega

theorem write_stsz_length (b : Bytes) (m : Web.Muxer) :
    (Web.write_stsz b m).length = b.length + 20 + 4 * m.frames.length := by
  rw [write_stsz_eq]
  simp
  try omega

theorem write_stco_length (b : Bytes) (off : Nat) :
    (Web.write_stco b off).length = b.length + 20 := by
  rw [write_stco_eq]
  simp

theorem sync_positions_length (fs : List Web.Frame) (i : Nat) :
    (Web.sync_positions fs i).length = Web.keyframe_count fs := by
  induction fs generalizing i with
  | nil => simp [Web.sync_positions, Web.keyframe_count]
  | cons f t ih =>
    by_cases hf : f.is_keyframe <;>
      simp [Web.sync_positions, Web.keyframe_count, List.filter_cons, hf, ih]

@[simp] theorem stss_payload_length (fs : List Web.Frame) :
    (Web.stss_payload fs).length = 8 + 4 * Web.keyframe_count fs := by
  simp [Web.stss_payload, sync_positions_length]
  omega

theorem write_stss_length (b : Bytes) (m : Web.Muxer) :
    (Web.write_stss b m).length =
      b.length + (if Web.keyframe_count m.frames = 0 then 0
        else 16 + 4 * Web.keyframe_count m.frames) := by
  rw [write_stss_eq]
  by_cases h : Web.keyframe_count m.frames = 0 <;> simp [h] <;> omega

theorem write_stbl_length (b : Bytes) (m : Web.Muxer) (off : Nat) :
    (Web.write_stbl b m off).length =
      b.length + 210 + (Web.avcC_content m).length + 4 * m.frames.length +
        (if Web.keyframe_count m.frames = 0 then 0
          else 16 + 4 * Web.keyframe_count m.frames) := by
  simp [Web.write_stbl, box_start, wr_u32, wr_bytes, write_stsd_length,
    write_stts_length, write_stsc_length, write_stsz_length, write_stco_length,
    write_stss_length]
  try omega

theorem write_minf_length (b : Bytes) (m : Web.Muxer) (off : Nat) :
    (Web.write_minf b m off).length =
      b.length + 274 + (Web.avcC_content m).length + 4 * m.frames.length +
        (if Web.keyframe_count m.frames = 0 then 0
          else 16 + 4 * Web.keyframe_count m.frames) := by
  simp [Web.write_minf, box_start, wr_u8, wr_u16, wr_u32, wr_bytes,
    write_stbl_length]
  try omega

theorem write_mdia_length (b : Bytes) (m : Web.Muxer) (off : Nat) :
    (Web.write_mdia b m off).length =
      b.length + 347 + (Web.avcC_content m).length + 4 * m.frames.length +
        (if Web.keyframe_count m.frames = 0 then 0
          else 16 + 4 * Web.keyframe_count m.frames) := by
  simp [Web.write_mdia, box_start, wr_u8, wr_u16, wr_u32, wr_bytes,
    write_minf_length]
  try omega

theorem write_trak_length (b : Bytes) (m : Web.Muxer) (off : Nat) :
    (Web.write_trak b m off).length =
      b.length + 451 + (Web.avcC_content m).length + 4 * m.frames.length +
        (if Web.keyframe_count m.frames = 0 then 0
          else 16 + 4 * Web.keyframe_count m.frames) := by
  simp [Web.write_trak, box_start, wr_u8, wr_u16, wr_u32, wr_bytes,
    write_mdia_length]
  try omega

theorem write_moov_length (b : Bytes) (m : Web.Muxer) (off : Nat) :
    (Web.write_moov b m off).length =
      b.length + 571 + (Web.avcC_content m).length + 4 * m.frames.length +
        (if Web.keyframe_count m.frames = 0 then 0
          else 16 + 4 * Web.keyframe_count m.frames) := by
  simp [Web.write_moov, box_start, wr_u8, wr_u16, wr_u32, wr_bytes,
    write_trak_length]
  try omega

/-- A fresh-session finalize appends exactly ftyp, mdat and moov (with
mdat offset 32, the size of ftyp) into the output buffer. -/
theorem finalize_eq (m : Web.Muxer) (hout : m.output = []) (hf : m.frames ≠ []) :
    Web.finalize_webcodecs_mp4 m =
      (some (Web.write_ftyp [] ++ (Web.write_mdat [] m.frames ++ Web.write_moov [] m 32)),
        { m with output :=
            Web.write_ftyp [] ++ (Web.write_mdat [] m.frames ++ Web.write_moov [] m 32) }) := by
  have hlen : ¬ m.frames.length = 0 := by
    intro h0
    exact hf (List.eq_nil_of_length_eq_zero h0)
  simp only [Web.finalize_webcodecs_mp4, hout, hlen, if_false]
  rw [show (Web.write_ftyp []).length = 32 from by decide]
  conv_lhs => rw [write_mdat_eq, write_moov_inv]
  conv_rhs => rw [write_mdat_eq, write_moov_inv]
  simp [List.append_assoc]

theorem wellSized_ftyp : WellSized (Web.write_ftyp []) := by
  constructor
  · decide
  · constructor
    · decide
    · decide

theorem wellSized_mdat (fs : List Web.Frame)
    (h : (Web.write_mdat [] fs).length < 2 ^ 32) :
    WellSized (Web.write_mdat [] fs) := by
  refine ⟨?_, h, ?_⟩
  · rw [write_mdat_length]
    omega
  · have hv : 8 + (Web.frames_payload fs).length < 2 ^ 32 := by
      have := write_mdat_length [] fs
      omega
    rw [write_mdat_eq]
    simp only [List.nil_append]
    rw [readU32_be32, Nat.mod_eq_of_lt hv]
    simp
    omega

theorem wellSized_moov (m : Web.Muxer) (off : Nat)
    (h : (Web.write_moov [] m off).length < 2 ^ 32) :
    WellSized (Web.write_moov [] m off) := by
  refine ⟨?_, h, ?_⟩
  · rw [write_moov_length]
    omega
  · simp only [Web.write_moov, box_start, wr_u8, wr_u16, wr_u32, wr_bytes,
      List.nil_append, List.length_nil] at h ⊢
    rw [readU32_box_end_zero]
    · rw [box_end_length] at h ⊢
      exact Nat.mod_eq_of_lt h
    · rw [write_trak_length]
      omega

theorem parseBoxes_single (x : Bytes) (hx : WellSized x) : parseBoxes x = true := by
  have := parseBoxes_append x [] hx
  simpa [parseBoxes_nil] using this

theorem runLen_replicate (d k : Nat) : Raw.runLen d (List.replicate k d) = k := by
  induction k with
  | zero => simp [Raw.runLen]
  | succ n ih => simp [List.replicate_succ, Raw.runLen, ih]

theorem spec_rle_replicate (n d : Nat) (h : 0 < n) :
    spec_rle (List.replicate n d) = [(n, d)] := by
  obtain ⟨k, rfl⟩ : ∃ k, n = k + 1 := ⟨n - 1, by omega⟩
  rw [List.replicate_succ, spec_rle_cons, runLen_replicate]
  simp [spec_rle, Nat.add_comm]

theorem all_same_iff (ss : List Nat) :
    Raw.all_same ss = true ↔ ∀ x ∈ ss, ∀ y ∈ ss, x = y := by
  cases ss with
  | nil => simp [Raw.all_same]
  | cons a t =>
    simp only [Raw.all_same, List.all_eq_true, decide_eq_true_eq]
    constructor
    · intro hall x hx y hy
      have hax : x = a := by
        rcases List.mem_cons.mp hx with rfl | hx'
        · rfl
        · exact hall x hx'
      have hay : y = a := by
        rcases List.mem_cons.mp hy with rfl | hy'
        · rfl
        · exact hall y hy'
      rw [hax, hay]
    · intro h y hy
      exact h y (List.mem_cons_of_mem a hy) a (List.mem_cons_self a t)

/-- Claim C1 (code bug): for the one-frame 1-by-1 session `exState`
(RGBA frame, RGB payload `[10, 20, 30]`, delay 100 ms), the multi-frame
raw muxer writes a chunk-offset entry of 405 — computed before the
202-byte stbl box was appended to the moov scratch buffer — while the
first sample payload byte actually sits at offset 607 of the finalized
buffer (ftyp 32 + full moov 567 + 8-byte mdat header).  The stco entry
therefore does NOT equal the true payload start. -/
theorem claim_C1_bug_eval :
    (Raw.get_video_buffer Raw.exState).1 = some Raw.exOut ∧
    Raw.exOut = Raw.exOut_bytes ∧
    Raw.exOut_bytes.length = 610 ∧
    (Raw.exOut_bytes.drop 583).take 4 = fourcc_stco ∧
    readU32 Raw.exOut_bytes 595 = 405 ∧
    (Raw.exOut_bytes.drop 603).take 4 = fourcc_mdat ∧
    readU32 Raw.exOut_bytes 599 = 11 ∧
    Raw.exOut_bytes.drop 607 = [10, 20, 30] ∧
    readU32 Raw.exOut_bytes 595 ≠ Raw.exOut_bytes.length - 3 :=
  ⟨rfl, by decide, by decide, by decide, by decide, by decide, by decide,
    by decide, by decide⟩

/-- Claim C2: (a) every `box_start`/`box_end` pair patches, into the
4-byte length field at the box's start, exactly the number of bytes from
the length field to the box's last byte (and the field reads back as that
extent whenever it is below 2^32); (b) re-parsing a finalized WebCodecs
buffer as length-prefixed boxes consumes it exactly, with zero leftover
bytes at the top level. -/
theorem claim_C2 :
    (∀ (b t p : Bytes), t.length = 4 →
      box_end (b ++ (be32 0 ++ (t ++ p))) b.length =
        b ++ (be32 (8 + p.length) ++ (t ++ p)) ∧
      (8 + p.length < 2 ^ 32 →
        readU32 (box_end (b ++ (be32 0 ++ (t ++ p))) b.length) b.length =
          8 + p.length)) ∧
    (∀ m : Web.Muxer, m.output = [] → m.frames ≠ [] →
      (Web.write_mdat [] m.frames).length < 2 ^ 32 →
      (Web.write_moov [] m 32).length < 2 ^ 32 →
      parseBoxes ((Web.finalize_webcodecs_mp4 m).1.getD []) = true) := by
  constructor
  · intro b t p ht
    refine ⟨box_end_spec b t p ht, ?_⟩
    intro hlt
    rw [box_end_spec b t p ht]
    have hr := readU32_append_right b (be32 (8 + p.length) ++ (t ++ p)) 0
    simp only [Nat.add_zero] at hr
    rw [hr, readU32_be32, Nat.mod_eq_of_lt hlt]
  · intro m hout hf h1 h2
    rw [finalize_eq m hout hf]
    simp only [Option.getD_some]
    rw [parseBoxes_append _ _ wellSized_ftyp,
      parseBoxes_append _ _ (wellSized_mdat m.frames h1),
      parseBoxes_single _ (wellSized_moov m 32 h2)]

/-- Witness for claim C2 at concrete inputs: a one-byte payload box and
the one-frame session `mx_one`. -/
theorem claim_C2_witness :
    box_end ([1] ++ (be32 0 ++ (fourcc_ftyp ++ [7]))) 1 =
      [1] ++ (be32 9 ++ (fourcc_ftyp ++ [7])) ∧
    parseBoxes ((Web.finalize_webcodecs_mp4 Web.mx_one).1.getD []) = true := by
  constructor
  · exact (claim_C2.1 [1] fourcc_ftyp [7] (by decide)).1
  · exact claim_C2.2 Web.mx_one rfl (by simp [Web.mx_one]) (by decide)
      (by rw [write_moov_length]; decide)

/-- Claim C3 (amended): the raw muxer's stts table is the greedy
run-length encoding of the ordered delays — N equal durations give the
single entry `(N, d)`, and `[10,10,20,20,10]` gives exactly
`(2,10),(2,20),(1,10)` — but the WebCodecs muxer does NOT run-length
encode: its stts box always holds exactly one `(sample count, averaged
delta)` entry, whatever the spacing of the timestamps. -/
theorem claim_C3_amended :
    (∀ (b : Bytes) (ds : List Nat),
      Raw.wr_stts b ds =
        b ++ (be32 (8 + (Raw.stts_payload ds).length) ++
          (fourcc_stts ++ Raw.stts_payload ds))) ∧
    (∀ n d : Nat, 0 < n → spec_rle (List.replicate n d) = [(n, d)]) ∧
    spec_rle [10, 10, 20, 20, 10] = [(2, 10), (2, 20), (1, 10)] ∧
    (∀ (b : Bytes) (m : Web.Muxer),
      Web.write_stts b m =
        b ++ (be32 (8 + (Web.stts_payload m).length) ++
          (fourcc_stts ++ Web.stts_payload m))) :=
  ⟨wr_stts_eq, spec_rle_replicate, by decide, write_stts_eq⟩

/-- Witness for claim C3: the two example delay patterns evaluated
through the raw writer and the RLE. -/
theorem claim_C3_witness :
    Raw.wr_stts [] [10, 10, 20, 20, 10] =
      [] ++ (be32 (8 + (Raw.stts_payload [10, 10, 20, 20, 10]).length) ++
        (fourcc_stts ++ Raw.stts_payload [10, 10, 20, 20, 10])) ∧
    spec_rle (List.replicate 3 7) = [(3, 7)] :=
  ⟨claim_C3_amended.1 [] [10, 10, 20, 20, 10],
    claim_C3_amended.2.1 3 7 (by decide)⟩

/-- Counterexample to the original claim C3: for three WebCodecs frames
at timestamps 0, 50000 and 60000 µs the successive spacings differ, yet
the stts box written is 24 bytes holding a single entry — entry count 1,
sample count 3, averaged delta 900 — not a multi-entry RLE table. -/
theorem claim_C3_counterexample :
    (Web.write_stts [] Web.mx_stts).length = 24 ∧
    readU32 (Web.write_stts [] Web.mx_stts) 12 = 1 ∧
    readU32 (Web.write_stts [] Web.mx_stts) 16 = 3 ∧
    readU32 (Web.write_stts [] Web.mx_stts) 20 = 900 := by
  decide

/-- Claim C4 (amended): the sync-sample table does list the 1-indexed
keyframe positions in order (`[true,false,false,true]` gives `[1, 4]`),
but the omission condition is inverted with respect to the claim: the
box is omitted exactly when there are NO sync samples, and a session in
which every sample is a sync sample still gets a full stss box. -/
theorem claim_C4_amended :
    (∀ (b : Bytes) (m : Web.Muxer),
      Web.write_stss b m =
        if Web.keyframe_count m.frames = 0 then b
        else
          b ++ (be32 (8 + (Web.stss_payload m.frames).length) ++
            (fourcc_stss ++ Web.stss_payload m.frames))) ∧
    Web.sync_positions
      [⟨[1], 0, true⟩, ⟨[2], 1, false⟩, ⟨[3], 2, false⟩, ⟨[4], 3, true⟩] 0 =
      [1, 4] :=
  ⟨write_stss_eq, by decide⟩

/-- Counterexample to the original claim C4: in the all-sync session
`mx_allsync` (both samples keyframes) the stss box is NOT omitted — the
output is a full 24-byte stss box listing entries 1 and 2. -/
theorem claim_C4_counterexample :
    Web.write_stss [] Web.mx_allsync =
      [0, 0, 0, 24] ++ (fourcc_stss ++
        ([0, 0, 0, 0] ++ (be32 2 ++ (be32 1 ++ be32 2)))) ∧
    Web.write_stss [] Web.mx_allsync ≠ [] := by
  decide

/-- Claim C5 (amended): the raw muxer's stsz box follows the claim —
shared-size form exactly when all sample sizes are equal, explicit
per-sample list otherwise — but the WebCodecs muxer ALWAYS writes the
variable form (sample-size field 0, one `size + 4` entry per sample),
even when every sample has the same byte length. -/
theorem claim_C5_amended :
    (∀ (b : Bytes) (ss : List Nat),
      Raw.wr_stsz b ss =
        b ++ (if Raw.all_same ss then
          be32 (8 + (Raw.stsz_shared_payload ss).length) ++
            (fourcc_stsz ++ Raw.stsz_shared_payload ss)
        else
          be32 (8 + (Raw.stsz_var_payload ss).length) ++
            (fourcc_stsz ++ Raw.stsz_var_payload ss))) ∧
    (∀ ss : List Nat, Raw.all_same ss = true ↔ ∀ x ∈ ss, ∀ y ∈ ss, x = y) ∧
    (∀ (b : Bytes) (m : Web.Muxer),
      Web.write_stsz b m =
        b ++ (be32 (8 + (Web.stsz_payload m.frames).length) ++
          (fourcc_stsz ++ Web.stsz_payload m.frames))) :=
  ⟨wr_stsz_eq, all_same_iff, write_stsz_eq⟩

/-- Counterexample to the original claim C5: the two samples of
`mx_eqsize` have identical byte length, yet the WebCodecs stsz box is the
28-byte variable form: sample-size field (offset 12) is 0 and an explicit
2-entry per-sample list follows. -/
theorem claim_C5_counterexample :
    (Web.write_stsz [] Web.mx_eqsize).length = 28 ∧
    readU32 (Web.write_stsz [] Web.mx_eqsize) 12 = 0 ∧
    readU32 (Web.write_stsz [] Web.mx_eqsize) 16 = 2 ∧
    readU32 (Web.write_stsz [] Web.mx_eqsize) 20 = 5 ∧
    readU32 (Web.write_stsz [] Web.mx_eqsize) 24 = 5 := by
  decide

/-- For a non-empty session, `finalize_webcodecs_mp4` succeeds, stores
the produced buffer as the new output, and the produced buffer's length
adds a fixed session-determined amount on top of the incoming output
buffer's length. -/
theorem finalize_out_length (m : Web.Muxer) (hf : m.frames ≠ []) :
    (Web.finalize_webcodecs_mp4 m).1.isSome = true ∧
    (Web.finalize_webcodecs_mp4 m).2 =
      { m with output := (Web.finalize_webcodecs_mp4 m).1.getD [] } ∧
    ((Web.finalize_webcodecs_mp4 m).1.getD []).length =
      m.output.length + 611 + (Web.frames_payload m.frames).length +
        (Web.avcC_content m).length + 4 * m.frames.length +
        (if Web.keyframe_count m.frames = 0 then 0
          else 16 + 4 * Web.keyframe_count m.frames) := by
  have hlen : ¬ m.frames.length = 0 := fun h0 => hf (List.eq_nil_of_length_eq_zero h0)
  simp only [Web.finalize_webcodecs_mp4, hlen, if_false, Option.getD_some,
    Option.isSome_some]
  refine ⟨trivial, trivial, ?_⟩
  rw [write_moov_length, write_mdat_length, write_ftyp_length]
  omega

/-- Claim C6: finalizing a session with zero samples yields the explicit
no-data result — the WebCodecs muxer returns `none` and leaves the state
unchanged, and the raw muxer's `get_video_buffer` returns the (still
`none`) cached pointer without building any container. -/
theorem claim_C6 :
    (∀ m : Web.Muxer, m.frames = [] → Web.finalize_webcodecs_mp4 m = (none, m)) ∧
    (∀ m : Raw.EncoderState, m.frames = [] → m.mp4_output = none →
      Raw.get_video_buffer m = (none, m)) := by
  constructor
  · intro m h
    simp [Web.finalize_webcodecs_mp4, h]
  · intro m h1 h2
    simp [Raw.get_video_buffer, h1, h2]

/-- Witness for claim C6: the empty WebCodecs session `mx_empty` and a
freshly initialized raw session. -/
theorem claim_C6_witness :
    Web.finalize_webcodecs_mp4 Web.mx_empty = (none, Web.mx_empty) ∧
    Raw.get_video_buffer ⟨[], 1, 1, 10, none⟩ =
      (none, (⟨[], 1, 1, 10, none⟩ : Raw.EncoderState)) :=
  ⟨claim_C6.1 Web.mx_empty rfl, claim_C6.2 ⟨[], 1, 1, 10, none⟩ rfl rfl⟩

/-- Claim C7 (amended): a second finalize without an intervening init is
NOT surfaced as an error by either muxer. The raw muxer silently returns
the cached buffer (the second call returns exactly the first call's
result and state), and the WebCodecs muxer silently rebuilds: it appends
ftyp/mdat/moov again onto the kept output buffer, returning a buffer of
exactly twice the first call's length. -/
theorem claim_C7_amended :
    (∀ m : Raw.EncoderState,
      Raw.get_video_buffer ((Raw.get_video_buffer m).2) =
        ((Raw.get_video_buffer m).1, (Raw.get_video_buffer m).2)) ∧
    (∀ m : Web.Muxer, m.output = [] → m.frames ≠ [] →
      (Web.finalize_webcodecs_mp4 ((Web.finalize_webcodecs_mp4 m).2)).1.isSome = true ∧
      ((Web.finalize_webcodecs_mp4 ((Web.finalize_webcodecs_mp4 m).2)).1.getD []).length =
        2 * ((Web.finalize_webcodecs_mp4 m).1.getD []).length) := by
  constructor
  · intro m
    by_cases h : m.mp4_output = none ∧ 0 < m.frames.length
    · simp [Raw.get_video_buffer, h]
    · simp [Raw.get_video_buffer, h]
  · intro m hout hf
    obtain ⟨h1, h2, h3⟩ := finalize_out_length m hf
    rw [h2]
    obtain ⟨g1, g2, g3⟩ :=
      finalize_out_length
        { m with output := (Web.finalize_webcodecs_mp4 m).1.getD [] } hf
    refine ⟨g1, ?_⟩
    rw [g3]
    have e1 : ({ m with output := (Web.finalize_webcodecs_mp4 m).1.getD [] } :
        Web.Muxer).frames = m.frames := rfl
    have e2 : Web.avcC_content
        { m with output := (Web.finalize_webcodecs_mp4 m).1.getD [] } =
      Web.avcC_content m := rfl
    have e3 : ({ m with output := (Web.finalize_webcodecs_mp4 m).1.getD [] } :
        Web.Muxer).output = (Web.finalize_webcodecs_mp4 m).1.getD [] := rfl
    rw [e1, e2, e3, h3, hout]
    simp only [List.length_nil]
    omega

/-- Witness for claim C7 at the one-frame session `mx_one`. -/
theorem claim_C7_witness :
    (Web.finalize_webcodecs_mp4
      ((Web.finalize_webcodecs_mp4 Web.mx_one).2)).1.isSome = true ∧
    ((Web.finalize_webcodecs_mp4
      ((Web.finalize_webcodecs_mp4 Web.mx_one).2)).1.getD []).length =
      2 * ((Web.finalize_webcodecs_mp4 Web.mx_one).1.getD []).length :=
  claim_C7_amended.2 Web.mx_one rfl (by simp [Web.mx_one])

/-- Counterexample to the original claim C7: neither muxer reports an
error on a repeated finalize — the WebCodecs muxer returns a 650-byte
buffer and then a 1300-byte one, and the raw muxer's second call still
returns the cached container. -/
theorem claim_C7_counterexample :
    ((Web.finalize_webcodecs_mp4 Web.mx_one).1.getD []).length = 650 ∧
    ((Web.finalize_webcodecs_mp4
      ((Web.finalize_webcodecs_mp4 Web.mx_one).2)).1.getD []).length = 1300 ∧
    (Raw.get_video_buffer ((Raw.get_video_buffer Raw.exState).2)).1 =
      some Raw.exOut := by
  have hf : Web.mx_one.frames ≠ [] := by simp [Web.mx_one]
  obtain ⟨h1, h2, h3⟩ := finalize_out_length Web.mx_one hf
  have hlen1 : ((Web.finalize_webcodecs_mp4 Web.mx_one).1.getD []).length = 650 := by
    rw [h3]; decide
  refine ⟨hlen1, ?_, rfl⟩
  rw [h2]
  obtain ⟨g1, g2, g3⟩ :=
    finalize_out_length
      { Web.mx_one with
        output := (Web.finalize_webcodecs_mp4 Web.mx_one).1.getD [] } hf
  rw [g3]
  have e1 : ({ Web.mx_one with
      output := (Web.finalize_webcodecs_mp4 Web.mx_one).1.getD [] } :
      Web.Muxer).frames = Web.mx_one.frames := rfl
  have e2 : Web.avcC_content
      { Web.mx_one with
        output := (Web.finalize_webcodecs_mp4 Web.mx_one).1.getD [] } =
      Web.avcC_content Web.mx_one := rfl
  have e3 : ({ Web.mx_one with
      output := (Web.finalize_webcodecs_mp4 Web.mx_one).1.getD [] } :
      Web.Muxer).output = (Web.finalize_webcodecs_mp4 Web.mx_one).1.getD [] := rfl
  rw [e1, e2, e3, hlen1]
  decide

/-- Claim C8 (amended): the raw muxer writes the sum of all frame delays
into all three duration fields (mvhd, tkhd, mdhd), as claimed; the
WebCodecs muxer instead derives every duration from the LAST timestamp —
mvhd and tkhd hold the last timestamp in milliseconds, and mdhd holds
the last timestamp scaled to the 30000 timescale, not the same total. -/
theorem claim_C8_amended :
    (∀ (fs : List Raw.FrameData) (w h : Nat),
      readU32 (Raw.create_mp4 [] fs w h) 64 =
        (fs.map (fun f => f.delay_ms)).sum % 2 ^ 32 ∧
      readU32 (Raw.create_mp4 [] fs w h) 184 =
        (fs.map (fun f => f.delay_ms)).sum % 2 ^ 32 ∧
      readU32 (Raw.create_mp4 [] fs w h) 280 =
        (fs.map (fun f => f.delay_ms)).sum % 2 ^ 32) ∧
    (∀ (m : Web.Muxer) (off : Nat),
      readU32 (Web.write_moov [] m off) 32 = Web.movie_duration m % 2 ^ 32 ∧
      readU32 (Web.write_moov [] m off) 156 = Web.movie_duration m % 2 ^ 32 ∧
      readU32 (Web.write_moov [] m off) 256 = Web.mdhd_duration m % 2 ^ 32) :=
  ⟨fun fs w h => ⟨create_mp4_mvhd_duration fs w h, create_mp4_tkhd_duration fs w h,
    create_mp4_mdhd_duration fs w h⟩,
   fun m off => ⟨write_moov_mvhd_duration m off, write_moov_tkhd_duration m off,
    write_moov_mdhd_duration m off⟩⟩

/-- Counterexample to the original claim C8: for the two-frame WebCodecs
session `mx_two` the movie-header duration is 100 while the media-header
duration is 3000 — the media header does not record the same total. -/
theorem claim_C8_counterexample :
    readU32 (Web.write_moov [] Web.mx_two 0) 32 = 100 ∧
    readU32 (Web.write_moov [] Web.mx_two 0) 256 = 3000 ∧
    Web.movie_duration Web.mx_two ≠ Web.mdhd_duration Web.mx_two := by
  refine ⟨?_, ?_, by decide⟩
  · rw [write_moov_mvhd_duration]
    decide
  · rw [write_moov_mdhd_duration]
    decide

/-- Claim C9: with a supplied non-empty decoder configuration record the
avcC box contains exactly that record's bytes verbatim; with none
supplied it contains exactly the 7-byte synthesized fallback record
`[1, 0x42, 0x00, 0x1E, 0xFF, 0xE0, 0x00]` — fixed profile 0x42 and
level 0x1E, and zero parameter sets. -/
theorem claim_C9 :
    (∀ (b : Bytes) (m : Web.Muxer) (cfg : Bytes),
      m.decoder_config = some cfg → cfg ≠ [] →
      Web.write_avc1_avcC b m =
        b ++ (be32 (8 + cfg.length) ++ (fourcc_avcC ++ cfg))) ∧
    (∀ (b : Bytes) (m : Web.Muxer), m.decoder_config = none →
      Web.write_avc1_avcC b m =
        b ++ (be32 15 ++ (fourcc_avcC ++ Web.fallback_avcC_bytes))) ∧
    Web.fallback_avcC_bytes = [1, 0x42, 0x00, 0x1E, 0xFF, 0xE0, 0x00] := by
  refine ⟨?_, ?_, rfl⟩
  · intro b m cfg hc hne
    rw [write_avc1_avcC_eq]
    have hpos : 0 < cfg.length := List.length_pos.mpr hne
    simp [Web.avcC_content, hc, hpos]
  · intro b m hc
    rw [write_avc1_avcC_eq]
    simp [Web.avcC_content, hc, Web.fallback_avcC_bytes]

/-- Witness for claim C9: the configured session `mx_cfg` (record
`[1, 100, 200]`) and the unconfigured session `mx_one`. -/
theorem claim_C9_witness :
    Web.write_avc1_avcC [] Web.mx_cfg =
      [] ++ (be32 (8 + ([1, 100, 200] : Bytes).length) ++
        (fourcc_avcC ++ [1, 100, 200])) ∧
    Web.write_avc1_avcC [] Web.mx_one =
      [] ++ (be32 15 ++ (fourcc_avcC ++ Web.fallback_avcC_bytes)) :=
  ⟨claim_C9.1 [] Web.mx_cfg [1, 100, 200] rfl (by decide),
    claim_C9.2.1 [] Web.mx_one rfl⟩

/-- Claim C10: `add_frame` with matching dimensions always succeeds, and
the stored delay is the supplied delay when it is strictly positive and
the 100 ms default when it is zero or negative. -/
theorem claim_C10 :
    (∀ (m : Raw.EncoderState) (rgba : Bytes) (d : Int), d ≤ 0 →
      (Raw.add_frame m rgba m.video_width m.video_height d).2.frames.map
          (fun f => f.delay_ms) =
        m.frames.map (fun f => f.delay_ms) ++ [100]) ∧
    (∀ (m : Raw.EncoderState) (rgba : Bytes) (d : Int), 0 < d →
      (Raw.add_frame m rgba m.video_width m.video_height d).2.frames.map
          (fun f => f.delay_ms) =
        m.frames.map (fun f => f.delay_ms) ++ [d.toNat]) ∧
    (∀ (m : Raw.EncoderState) (rgba : Bytes) (d : Int),
      (Raw.add_frame m rgba m.video_width m.video_height d).1 = true) := by
  refine ⟨?_, ?_, ?_⟩
  · intro m rgba d hd
    have hnd : ¬ 0 < d := by omega
    simp [Raw.add_frame, hnd]
  · intro m rgba d hd
    simp [Raw.add_frame, hd]
  · intro m rgba d
    simp [Raw.add_frame]

/-- Witness for claim C10: one 1-by-1 frame added with delay 0 stores the
100 ms default; with delay 250 it stores 250 ms. -/
theorem claim_C10_witness :
    (Raw.add_frame ⟨[], 1, 1, 10, none⟩ [9, 9, 9, 9] 1 1 0).2.frames.map
        (fun f => f.delay_ms) = [100] ∧
    (Raw.add_frame ⟨[], 1, 1, 10, none⟩ [9, 9, 9, 9] 1 1 250).2.frames.map
        (fun f => f.delay_ms) = [250] :=
  ⟨claim_C10.1 ⟨[], 1, 1, 10, none⟩ [9, 9, 9, 9] 0 (by decide),
    claim_C10.2.1 ⟨[], 1, 1, 10, none⟩ [9, 9, 9, 9] 250 (by decide)⟩
